import Mathlib

/-!
Shallow embedding of the CA-RD server core (print-job queue, input-session
store, structured-content generator) from `src/unnamed/part_000`, together
with theorems checking the natural-language specification against it.

JS strings are modelled as `List Char`; JS numbers as exact decimals
`mant * 10 ^ exp` over `ℤ` (the values the program's checks distinguish —
small integers and short decimals such as 3.5 — are exactly representable
as IEEE doubles, so double rounding is not modelled); `Date.now()`
timestamps as `ℕ` milliseconds.  `NaN` is modelled as `none` of an
`Option`.
-/

namespace CARD

/-- JS strings, as lists of characters. -/
abbrev Str := List Char

/-- Whitespace recognised by JS `String.prototype.trim` (ASCII whitespace
plus NBSP, BOM and the line/paragraph separators, by code point). -/
def isJsWs (c : Char) : Bool :=
  c = ' ' || c = '\t' || c = '\n' || c = '\r' || c = '\x0b' || c = '\x0c' ||
  c.toNat = 160 || c.toNat = 65279 || c.toNat = 8232 || c.toNat = 8233

/-- JS `String.prototype.trim`: strip leading and trailing whitespace. -/
def trim (s : Str) : Str :=
  ((s.dropWhile isJsWs).reverse.dropWhile isJsWs).reverse

/-- Whitespace allowed by JSON between tokens (space, tab, newline, CR). -/
def isJsonWs (c : Char) : Bool :=
  c = ' ' || c = '\t' || c = '\n' || c = '\r'

/-- A JS number as an exact decimal `mant * 10 ^ exp` (finite doubles
carry no more information at the magnitudes this program checks). -/
structure JNum where
  mant : ℤ
  exp : ℤ
deriving DecidableEq

/-- The exact integer a number denotes, if it denotes one
(JS `Number.isInteger` plus the integer's value). -/
def JNum.toInt? (n : JNum) : Option ℤ :=
  if 0 ≤ n.exp then some (n.mant * 10 ^ n.exp.toNat)
  else if (10 : ℤ) ^ (-n.exp).toNat ∣ n.mant then
    some (n.mant / 10 ^ (-n.exp).toNat)
  else none

/-- An integer as a `JNum`. -/
def JNum.ofInt (i : ℤ) : JNum := ⟨i, 0⟩

/-- JS values as produced by `JSON.parse` plus `undefined` (the result of
reading an absent property). -/
inductive JVal where
  | jundefined
  | jnull
  | jbool (b : Bool)
  | jnum (n : JNum)
  | jstr (s : Str)
  | jarr (elems : List JVal)
  | jobj (fields : List (Str × JVal))

/-- Decimal digits of a natural number. -/
def natToStr (n : ℕ) : Str := Nat.toDigits 10 n

/-- Decimal rendering of an integer. -/
def intToStr (i : ℤ) : Str :=
  if i < 0 then '-' :: natToStr i.natAbs else natToStr i.natAbs

/-- Drop trailing zero digits of a fractional part. -/
def stripZeros (s : Str) : Str :=
  (s.reverse.dropWhile (· = '0')).reverse

/-- JS number-to-string on the exact decimal model (JS prints the shortest
decimal that round-trips; on the finite decimals this file manipulates the
two agree, and the e-notation used beyond 1e21 is not modelled). -/
def numToStr (n : JNum) : Str :=
  let sign : Str := if n.mant < 0 then ['-'] else []
  let m := n.mant.natAbs
  if 0 ≤ n.exp then sign ++ natToStr (m * 10 ^ n.exp.toNat)
  else
    let k := (-n.exp).toNat
    let intPart := m / 10 ^ k
    let fracDigits := natToStr (m % 10 ^ k)
    let padded := List.replicate (k - fracDigits.length) '0' ++ fracDigits
    let frac := stripZeros padded
    if frac = [] then sign ++ natToStr intPart
    else sign ++ natToStr intPart ++ '.' :: frac

/-- Digit test. -/
def isDigit (c : Char) : Bool := '0' ≤ c ∧ c ≤ '9'

/-- Value of a decimal digit string (most significant first). -/
def digitsToNat (ds : Str) : ℕ :=
  ds.foldl (fun acc c => 10 * acc + (c.toNat - '0'.toNat)) 0

/-- Hex digit value, if the character is one. -/
def hexDigitVal (c : Char) : Option ℕ :=
  if '0' ≤ c ∧ c ≤ '9' then some (c.toNat - '0'.toNat)
  else if 'a' ≤ c ∧ c ≤ 'f' then some (c.toNat - 'a'.toNat + 10)
  else if 'A' ≤ c ∧ c ≤ 'F' then some (c.toNat - 'A'.toNat + 10)
  else none

/-- Value of a digit string in a given base, failing on an invalid digit
or an empty string. -/
def radixToNat (base : ℕ) (ds : Str) : Option ℕ :=
  match ds with
  | [] => none
  | _ =>
    ds.foldl
      (fun acc c =>
        match acc, hexDigitVal c with
        | some a, some d => if d < base then some (base * a + d) else none
        | _, _ => none)
      (some 0)

/-- Mantissa and exponent of `intDs . fracDs`, before any `e` suffix. -/
def mantOf (intDs fracDs : Str) : JNum :=
  ⟨(digitsToNat intDs : ℤ) * 10 ^ fracDs.length + (digitsToNat fracDs : ℤ),
    -(fracDs.length : ℤ)⟩

/-- One decimal numeric literal covering the whole string:
`digits [. digits] [e[+|-]digits]` with at least one mantissa digit
(the common core of the JS `Number()` grammar). -/
def parseDecimalLit (s : Str) : Option JNum :=
  let intDs := s.takeWhile isDigit
  let rest1 := s.drop intDs.length
  let fracDs :=
    match rest1 with
    | '.' :: r => r.takeWhile isDigit
    | _ => []
  let rest2 :=
    match rest1 with
    | '.' :: r => r.drop fracDs.length
    | _ => rest1
  if intDs = [] ∧ fracDs = [] then none
  else
    let m := mantOf intDs fracDs
    match rest2 with
    | [] => some m
    | 'e' :: r => parseExpPart m r
    | 'E' :: r => parseExpPart m r
    | _ => none
where
  /-- Exponent suffix `[+|-]digits`, applied to the mantissa. -/
  parseExpPart (m : JNum) (r : Str) : Option JNum :=
    let (neg, ds) :=
      match r with
      | '+' :: r2 => (false, r2)
      | '-' :: r2 => (true, r2)
      | _ => (false, r)
    if ds = [] ∨ ¬(ds.all isDigit) then none
    else
      let e : ℤ := if neg then -(digitsToNat ds : ℤ) else (digitsToNat ds : ℤ)
      some ⟨m.mant, m.exp + e⟩

/-- JS `Number(string)`: trim, empty to 0, hex/octal/binary prefixes,
otherwise a signed decimal literal; `none` models `NaN` (and also
`Infinity`, which every consumer in the source treats the same way, both
failing `Number.isInteger`). -/
def strToNumber (s : Str) : Option JNum :=
  let t := trim s
  match t with
  | [] => some (.ofInt 0)
  | '0' :: 'x' :: r => (radixToNat 16 r).map (fun n => .ofInt n)
  | '0' :: 'X' :: r => (radixToNat 16 r).map (fun n => .ofInt n)
  | '0' :: 'o' :: r => (radixToNat 8 r).map (fun n => .ofInt n)
  | '0' :: 'O' :: r => (radixToNat 8 r).map (fun n => .ofInt n)
  | '0' :: 'b' :: r => (radixToNat 2 r).map (fun n => .ofInt n)
  | '0' :: 'B' :: r => (radixToNat 2 r).map (fun n => .ofInt n)
  | '+' :: r => parseDecimalLit r
  | '-' :: r => (parseDecimalLit r).map (fun m => ⟨-m.mant, m.exp⟩)
  | _ => parseDecimalLit t

mutual

/-- JS `String(value)` with recursion fuel for nested arrays
(`Array.prototype.toString` joins elements with commas; objects print as
`[object Object]`). -/
def jsToStringF : ℕ → JVal → Str
  | _, .jundefined => "undefined".toList
  | _, .jnull => "null".toList
  | _, .jbool true => "true".toList
  | _, .jbool false => "false".toList
  | _, .jnum n => numToStr n
  | _, .jstr s => s
  | 0, .jarr _ => []
  | fuel + 1, .jarr xs => joinArrF fuel xs
  | _, .jobj _ => "[object Object]".toList

/-- Array elements joined with commas; `null`/`undefined` elements print
as the empty string inside a join. -/
def joinArrF : ℕ → List JVal → Str
  | 0, _ => []
  | _, [] => []
  | fuel + 1, [x] => arrElemStrF fuel x
  | fuel + 1, x :: y :: rest => arrElemStrF fuel x ++ ',' :: joinArrF fuel (y :: rest)

/-- One array element as a string for `Array.prototype.join`. -/
def arrElemStrF : ℕ → JVal → Str
  | 0, _ => []
  | _, .jundefined => []
  | _, .jnull => []
  | fuel + 1, v => jsToStringF fuel v

end

/-- JS `String(value)`; nesting deeper than 1000 arrays (where a real JS
engine would be near its call-stack limit) is cut off by fuel. -/
def jsToString (v : JVal) : Str := jsToStringF 1000 v

/-- JS `Number(value)` coercion; `none` models `NaN`. -/
def toNumber : JVal → Option JNum
  | .jundefined => none
  | .jnull => some (.ofInt 0)
  | .jbool true => some (.ofInt 1)
  | .jbool false => some (.ofInt 0)
  | .jnum n => some n
  | .jstr s => strToNumber s
  | .jarr xs => strToNumber (joinArrF 1000 xs)
  | .jobj _ => none

/-- Property read `value[key]`: on objects the last binding of the key wins
(duplicate JSON keys overwrite); on arrays a decimal index reads the
element; anything else (or a missing key) yields `undefined`.  In the
source this is only applied after a `typeof value === "object"` guard. -/
def getProp (v : JVal) (key : Str) : JVal :=
  match v with
  | .jobj fields =>
    match fields.reverse.find? (fun p => p.1 == key) with
    | some p => p.2
    | none => .jundefined
  | .jarr xs =>
    if key ≠ [] ∧ key.all isDigit then
      match xs.get? (digitsToNat key) with
      | some x => x
      | none => .jundefined
    else .jundefined
  | _ => .jundefined

/-- Truthiness combined with `typeof value === "object"`: exactly the JS
objects and arrays pass (`null` is of object type but falsy). -/
def isTruthyObject : JVal → Bool
  | .jobj _ => true
  | .jarr _ => true
  | _ => false

/-- String content of a JSON string literal after the opening quote:
returns the decoded characters and the rest after the closing quote.
Escapes and the ban on raw control characters follow the JSON grammar. -/
def parseStrChars : Str → Option (Str × Str)
  | [] => none
  | '"' :: rest => some ([], rest)
  | '\\' :: rest =>
    match rest with
    | '"' :: r => (parseStrChars r).map (fun p => ('"' :: p.1, p.2))
    | '\\' :: r => (parseStrChars r).map (fun p => ('\\' :: p.1, p.2))
    | '/' :: r => (parseStrChars r).map (fun p => ('/' :: p.1, p.2))
    | 'b' :: r => (parseStrChars r).map (fun p => ('\x08' :: p.1, p.2))
    | 'f' :: r => (parseStrChars r).map (fun p => ('\x0c' :: p.1, p.2))
    | 'n' :: r => (parseStrChars r).map (fun p => ('\n' :: p.1, p.2))
    | 'r' :: r => (parseStrChars r).map (fun p => ('\r' :: p.1, p.2))
    | 't' :: r => (parseStrChars r).map (fun p => ('\t' :: p.1, p.2))
    | 'u' :: a :: b :: c :: d :: r =>
      match hexDigitVal a, hexDigitVal b, hexDigitVal c, hexDigitVal d with
      | some ha, some hb, some hc, some hd =>
        let code := ((ha * 16 + hb) * 16 + hc) * 16 + hd
        (parseStrChars r).map (fun p => (Char.ofNat code :: p.1, p.2))
      | _, _, _, _ => none
    | _ => none
  | c :: rest =>
    if c.toNat < 32 then none
    else (parseStrChars rest).map (fun p => (c :: p.1, p.2))

/-- A JSON number token at the head of the input: `-?int[frac][exp]` with
`int = 0 | [1-9]digits` (a leading zero ends the integer part, as in the
JSON grammar). Returns the value and the unconsumed rest. -/
def parseJsonNumber (s : Str) : Option (JNum × Str) :=
  let (neg, s1) :=
    match s with
    | '-' :: r => (true, r)
    | _ => (false, s)
  let ds := s1.takeWhile isDigit
  match ds with
  | [] => none
  | d0 :: drest =>
    let intDs := if d0 = '0' ∧ drest ≠ [] then [d0] else ds
    let afterInt := s1.drop intDs.length
    let fracDs :=
      match afterInt with
      | '.' :: r => r.takeWhile isDigit
      | _ => []
    match afterInt, fracDs with
    | '.' :: _, [] => none
    | _, _ =>
      let afterFrac :=
        match afterInt with
        | '.' :: r => r.drop fracDs.length
        | _ => afterInt
      let m0 := mantOf intDs fracDs
      let signed : JNum := if neg then ⟨-m0.mant, m0.exp⟩ else m0
      match afterFrac with
      | 'e' :: r => expPart signed r
      | 'E' :: r => expPart signed r
      | _ => some (signed, afterFrac)
where
  /-- Exponent suffix of a JSON number, with the unconsumed rest. -/
  expPart (m : JNum) (r : Str) : Option (JNum × Str) :=
    let (eneg, r1) :=
      match r with
      | '+' :: r2 => (false, r2)
      | '-' :: r2 => (true, r2)
      | _ => (false, r)
    let eds := r1.takeWhile isDigit
    if eds = [] then none
    else
      let e : ℤ := if eneg then -(digitsToNat eds : ℤ) else (digitsToNat eds : ℤ)
      some (⟨m.mant, m.exp + e⟩, r1.drop eds.length)

mutual

/-- One JSON value at the head of the input (after skipping whitespace),
with the unconsumed rest; the first argument is recursion fuel. -/
def parseVal : ℕ → Str → Option (JVal × Str)
  | 0, _ => none
  | fuel + 1, s =>
    match s.dropWhile isJsonWs with
    | [] => none
    | 'n' :: 'u' :: 'l' :: 'l' :: r => some (.jnull, r)
    | 't' :: 'r' :: 'u' :: 'e' :: r => some (.jbool true, r)
    | 'f' :: 'a' :: 'l' :: 's' :: 'e' :: r => some (.jbool false, r)
    | '"' :: r => (parseStrChars r).map (fun p => (JVal.jstr p.1, p.2))
    | '[' :: r =>
      match r.dropWhile isJsonWs with
      | ']' :: r2 => some (.jarr [], r2)
      | _ => (parseElems fuel r).map (fun p => (JVal.jarr p.1, p.2))
    | '\x7b' :: r =>
      match r.dropWhile isJsonWs with
      | '\x7d' :: r2 => some (.jobj [], r2)
      | _ => (parseFields fuel r).map (fun p => (JVal.jobj p.1, p.2))
    | s1 => (parseJsonNumber s1).map (fun p => (JVal.jnum p.1, p.2))

/-- Comma-separated array elements up to the closing bracket. -/
def parseElems : ℕ → Str → Option (List JVal × Str)
  | 0, _ => none
  | fuel + 1, s =>
    match parseVal fuel s with
    | none => none
    | some (v, rest) =>
      match rest.dropWhile isJsonWs with
      | ',' :: r => (parseElems fuel r).map (fun p => (v :: p.1, p.2))
      | ']' :: r => some ([v], r)
      | _ => none

/-- Comma-separated `"key": value` members up to the closing brace. -/
def parseFields : ℕ → Str → Option (List (Str × JVal) × Str)
  | 0, _ => none
  | fuel + 1, s =>
    match s.dropWhile isJsonWs with
    | '"' :: r =>
      match parseStrChars r with
      | none => none
      | some (key, rest) =>
        match rest.dropWhile isJsonWs with
        | ':' :: r2 =>
          match parseVal fuel r2 with
          | none => none
          | some (v, rest2) =>
            match rest2.dropWhile isJsonWs with
            | ',' :: r3 => (parseFields fuel r3).map (fun p => ((key, v) :: p.1, p.2))
            | '\x7d' :: r3 => some ([(key, v)], r3)
            | _ => none
        | _ => none
    | _ => none

end

/-- JS `JSON.parse`: one JSON value covering the whole text up to trailing
whitespace, else failure.  The fuel `2 * length + 2` over-approximates the
recursion depth (each nesting level consumes at least one character). -/
def parseJson (s : Str) : Option JVal :=
  match parseVal (2 * s.length + 2) s with
  | some (v, rest) => if rest.dropWhile isJsonWs = [] then some v else none
  | none => none

/-- The `value ?? ""` nullish-coalescing step of `clampText`. -/
def nullishToStr : JVal → JVal
  | .jundefined => .jstr []
  | .jnull => .jstr []
  | v => v

/-- Source `clampText(label, value, maxLen)`: stringify with `value ?? ""`,
trim, and hard-truncate to `maxLen` characters (truncation is logged but
not an error). -/
def clampText (value : JVal) (maxLen : ℕ) : Str :=
  let str := trim (jsToString (nullishToStr value))
  if str.length > maxLen then str.take maxLen else str

/-- Source `extractJsonObject(text)`: on falsy (empty) text, `null`;
otherwise re-parse the span from the first `\x7b` to the last `\x7d`
(requiring the latter to come strictly after the former), with a parse
failure mapped to `null`. -/
def extractJsonObject (text : Str) : Option JVal :=
  if text = [] then none
  else
    match text.findIdx? (· = '\x7b'), text.reverse.findIdx? (· = '\x7d') with
    | some s, some revE =>
      let e := text.length - 1 - revE
      if e ≤ s then none
      else parseJson ((text.drop s).take (e + 1 - s))
    | _, _ => none

/-- Source constant `MAX_FAILS`. -/
def MAX_FAILS : ℕ := 3

/-- TTL configuration (`CONFIG` in the source), with the source defaults. -/
structure Config where
  PRINT_JOB_TTL_MS : ℕ := 300000
  PRINT_CLAIM_TTL_MS : ℕ := 60000
  INPUT_SESSION_TTL_MS : ℕ := 600000

/-- The five fixed integer stats of a card. -/
structure Stats where
  sense : ℤ
  logic : ℤ
  luck : ℤ
  charm : ℤ
  vibe : ℤ
deriving DecidableEq

/-- A validated card record (`class` is a Lean keyword, hence `klass`,
matching the source's own local name for it). -/
structure CardData where
  name : Str
  klass : Str
  stats : Stats
  skill : Str
  description : Str
deriving DecidableEq

/-- A validated question. -/
structure Question where
  id : ℤ
  text : Str
deriving DecidableEq

/-- A validated question set. -/
structure QuestionSet where
  sessionId : Str
  questions : List Question
deriving DecidableEq

/-- Map each element through a fallible step, failing if any element
fails (the source maps and then rejects when any result is `null`). -/
def mapOrNone (f : α → Option β) : List α → Option (List β)
  | [] => some []
  | x :: xs =>
    match f x, mapOrNone f xs with
    | some y, some ys => some (y :: ys)
    | _, _ => none

/-- One stat field: `Number(...)` coercion followed by the source's
`Number.isInteger(val) && 1 <= val && val <= 100` entries-loop check
(the source coerces all five fields first and then checks each; the
per-field composition is the same). -/
def toStatInt (v : JVal) : Option ℤ :=
  match toNumber v with
  | some n =>
    match n.toInt? with
    | some i => if i < 1 ∨ i > 100 then none else some i
    | none => none
  | none => none

/-- Source `normalizeCardData(raw)`: truthy-object guard, clamped text
fields which must be non-empty, truthy-object `stats` guard, then the
five integer-range stat checks. -/
def normalizeCardData (raw : JVal) : Option CardData :=
  if ¬isTruthyObject raw then none
  else
    let name := clampText (getProp raw "name".toList) 12
    let klass := clampText (getProp raw "class".toList) 15
    let skill := clampText (getProp raw "skill".toList) 20
    let description := clampText (getProp raw "description".toList) 60
    if name = [] ∨ klass = [] ∨ skill = [] ∨ description = [] then none
    else
      let stats := getProp raw "stats".toList
      if ¬isTruthyObject stats then none
      else
        match toStatInt (getProp stats "sense".toList),
              toStatInt (getProp stats "logic".toList),
              toStatInt (getProp stats "luck".toList),
              toStatInt (getProp stats "charm".toList),
              toStatInt (getProp stats "vibe".toList) with
        | some a, some b, some c, some d, some e =>
          some ⟨name, klass, ⟨a, b, c, d, e⟩, skill, description⟩
        | _, _, _, _, _ => none

/-- One entry of the `raw.questions.map(...)` in `normalizeQuestions`:
object guard, `Number(q.id)` coercion, clamped text; fails unless the id
is an integer `≥ 1` and the text is non-empty. -/
def normalizeOneQuestion (q : JVal) : Option Question :=
  if ¬isTruthyObject q then none
  else
    let text := clampText (getProp q "text".toList) 30
    match toNumber (getProp q "id".toList) with
    | some n =>
      match n.toInt? with
      | some i => if i < 1 ∨ text = [] then none else some ⟨i, text⟩
      | none => none
    | none => none

/-- Source `normalizeQuestions(raw)`: truthy-object guard, `questions`
must be an array of length 4..5, `session_id` clamps to a non-empty
string, and every entry must normalize (the source maps and then rejects
if any entry is `null`, which is `mapM` over `Option`). -/
def normalizeQuestions (raw : JVal) : Option QuestionSet :=
  if ¬isTruthyObject raw then none
  else
    match getProp raw "questions".toList with
    | .jarr qs =>
      if qs.length < 4 ∨ qs.length > 5 then none
      else
        let sessionId := clampText (getProp raw "session_id".toList) 64
        if sessionId = [] then none
        else
          match mapOrNone normalizeOneQuestion qs with
          | some questions => some ⟨sessionId, questions⟩
          | none => none
    | _ => none

/-- Messages thrown by a card-generation attempt (the source interpolates
the underlying `JSON.parse` message; the embedding keeps a fixed text). -/
def emptyRespMsg : Str := "JSON parse failed: empty response".toList

/-- Parse-failure message of a card-generation attempt. -/
def parseFailMsg : Str := "JSON parse failed".toList

/-- Schema-failure message of a card-generation attempt. -/
def schemaFailMsg : Str := "Schema validation failed".toList

/-- Fallback error of `generateCardData` (dead in practice: the loop always
records an error before reaching it). -/
def aiFailedMsg : Str := "AI failed".toList

/-- Empty-response message of a question-generation attempt. -/
def qEmptyRespMsg : Str := "Question JSON parse failed: empty response".toList

/-- Parse-failure message of a question-generation attempt. -/
def qParseFailMsg : Str := "Question JSON parse failed".toList

/-- Schema-failure message of a question-generation attempt. -/
def qSchemaFailMsg : Str := "Question schema validation failed".toList

/-- Fallback error of `generateQuestions` (dead in practice). -/
def qFailedMsg : Str := "Question generation failed".toList

/-- Outcome of one `callOllamaChat`: the returned text, or a thrown
transport/timeout/shape error. -/
abbrev CallResult := Except Str Str

/-- One card-generation attempt given the backend call's outcome: empty
check, `JSON.parse` of the raw text, brace-span fallback on the trimmed
text, then schema validation. -/
def attemptCard (call : CallResult) : Except Str CardData :=
  match call with
  | .error e => .error e
  | .ok rawText =>
    let trimmedRaw := trim rawText
    if trimmedRaw = [] then .error emptyRespMsg
    else
      let parsed? :=
        match parseJson rawText with
        | some parsed => some parsed
        | none => extractJsonObject trimmedRaw
      match parsed? with
      | none => .error parseFailMsg
      | some parsed =>
        match normalizeCardData parsed with
        | some c => .ok c
        | none => .error schemaFailMsg

/-- One question-generation attempt (the source parses the trimmed text
directly here; otherwise the shape matches `attemptCard`). -/
def attemptQuestions (call : CallResult) : Except Str QuestionSet :=
  match call with
  | .error e => .error e
  | .ok rawText =>
    let trimmedRaw := trim rawText
    if trimmedRaw = [] then .error qEmptyRespMsg
    else
      let parsed? :=
        match parseJson trimmedRaw with
        | some parsed => some parsed
        | none => extractJsonObject trimmedRaw
      match parsed? with
      | none => .error qParseFailMsg
      | some parsed =>
        match normalizeQuestions parsed with
        | some qs => .ok qs
        | none => .error qSchemaFailMsg

/-- The `for (attempt = 1; attempt <= 3; ...)` retry loop with its
`lastError` accumulator: `n` attempts remain, `i` is the next attempt
number, and on exhaustion the last recorded error (or the dead fallback)
is thrown. -/
def attemptLoop (f : ℕ → Except Str α) (dflt : Str) : ℕ → ℕ → Option Str → Except Str α
  | 0, _, last => .error (last.getD dflt)
  | n + 1, i, _ =>
    match f i with
    | .ok a => .ok a
    | .error e => attemptLoop f dflt n (i + 1) (some e)

/-- Source `generateCardData`, abstracted over the sequence of backend
call outcomes (`calls i` is what attempt `i`'s `callOllamaChat` does). -/
def generateCardData (calls : ℕ → CallResult) : Except Str CardData :=
  attemptLoop (fun i => attemptCard (calls i)) aiFailedMsg 3 1 none

/-- Source `generateQuestions`, abstracted the same way. -/
def generateQuestions (calls : ℕ → CallResult) : Except Str QuestionSet :=
  attemptLoop (fun i => attemptQuestions (calls i)) qFailedMsg 3 1 none

/-- A print job (`meta` is the opaque metadata object). -/
structure Job where
  id : Str
  imageBase64 : Str
  meta : JVal
  createdAt : ℕ
  claimedAt : Option ℕ
  claimedBy : Option Str
  failCount : ℕ

/-- The claim-release step of one `cleanupQueue` iteration: an active
claim older than `PRINT_CLAIM_TTL_MS` is cleared.  (`Date.now()` is always
positive, so the JS falsiness of a 0 timestamp cannot fire and `some t`
is truthy.) -/
def clearExpiredClaim (cfg : Config) (now : ℕ) (job : Job) : Job :=
  match job.claimedAt with
  | some t =>
    if now - t > cfg.PRINT_CLAIM_TTL_MS then
      { job with claimedAt := none, claimedBy := none }
    else job
  | none => job

/-- Source `cleanupQueue`: per job, release an expired claim, then evict
when the job age exceeds `PRINT_JOB_TTL_MS` or `failCount` reached
`MAX_FAILS`.  The source iterates backward over the array and splices;
each job is handled independently and order is preserved, which this
structural traversal mirrors. -/
def cleanupQueue (cfg : Config) (now : ℕ) : List Job → List Job
  | [] => []
  | job :: rest =>
    let j := clearExpiredClaim cfg now job
    if now - j.createdAt > cfg.PRINT_JOB_TTL_MS ∨ j.failCount ≥ MAX_FAILS then
      cleanupQueue cfg now rest
    else
      j :: cleanupQueue cfg now rest

/-- Source `pendingCount`: jobs with no active claim. -/
def pendingCount (q : List Job) : ℕ :=
  (q.filter (fun j => j.claimedAt.isNone)).length

/-- Source `enqueuePrintJob`: push a fresh unclaimed job at the tail
(`jobId` stands for the generated uuid). -/
def enqueuePrintJob (q : List Job) (jobId imageBase64 : Str) (meta : JVal) (now : ℕ) :
    List Job :=
  q ++ [{ id := jobId, imageBase64 := imageBase64, meta := meta, createdAt := now,
          claimedAt := none, claimedBy := none, failCount := 0 }]

/-- The `printQueue.find((job) => !job.claimedAt)` of the claim route plus
the in-place claim mutation: first unclaimed job, claimed, with the
updated queue. -/
def claimFirst (clientId : Str) (now : ℕ) : List Job → Option (Job × List Job)
  | [] => none
  | j :: rest =>
    if j.claimedAt.isSome then
      (claimFirst clientId now rest).map (fun p => (p.1, j :: p.2))
    else
      let j' := { j with claimedAt := some now, claimedBy := some clientId }
      some (j', j' :: rest)

/-- Route `GET /api/print/next`: garbage-collect, then claim the first
unclaimed job for `clientId`; `none` models the 204 NO_JOB_AVAILABLE
response.  (The route reads `Date.now()` twice, for GC and for the claim
stamp; both happen in the same tick and are modelled by one `now`.) -/
def claimNext (cfg : Config) (clientId : Str) (now : ℕ) (q : List Job) :
    Option Job × List Job :=
  let q1 := cleanupQueue cfg now q
  match claimFirst clientId now q1 with
  | none => (none, q1)
  | some (j, q2) => (some j, q2)

/-- Result of the outcome-report route. -/
inductive DoneResult where
  | ok
  | notFound
  | invalidStatus
deriving DecidableEq

/-- Route `POST /api/print/:jobId/done`: the source locates the job with
`findIndex` on the id and splices or mutates at that index; the traversal
here performs the same update at the first matching id.  NOT_FOUND is
checked before the status value; `printed` removes; `failed` increments
`failCount`, clears the claim, and evicts when `failCount` reached
`MAX_FAILS`; any other status is INVALID_STATUS with no change. -/
def applyOutcome (status : JVal) (job : Job) (rest : List Job) : DoneResult × List Job :=
  match status with
  | .jstr s =>
    if s = "printed".toList then (.ok, rest)
    else if s = "failed".toList then
      let j' := { job with
        failCount := job.failCount + 1, claimedAt := none, claimedBy := none }
      if j'.failCount ≥ MAX_FAILS then (.ok, rest)
      else (.ok, j' :: rest)
    else (.invalidStatus, job :: rest)
  | _ => (.invalidStatus, job :: rest)

/-- The recursive job search of the outcome route (see `applyOutcome` for
the per-job body). -/
def reportOutcome (jobId : Str) (status : JVal) : List Job → DoneResult × List Job
  | [] => (.notFound, [])
  | job :: rest =>
    if job.id = jobId then applyOutcome status job rest
    else
      let r := reportOutcome jobId status rest
      (r.1, job :: r.2)

/-- An input session. -/
structure InputSession where
  token : Str
  createdAt : ℕ
  sessionId : Str
  questions : List Question
  answeredAt : Option ℕ
  keywords : Option (List Str)
deriving DecidableEq

/-- The `inputSessions` map, as an insertion-ordered association list with
unique tokens. -/
abbrev SessionStore := List (Str × InputSession)

/-- Source `getInputSession`: lookup, with lazy eviction (and NOT_FOUND)
when the session age exceeds `INPUT_SESSION_TTL_MS`. -/
def getInputSession (cfg : Config) (now : ℕ) (token : Str) (store : SessionStore) :
    Option InputSession × SessionStore :=
  match store.find? (fun p => p.1 == token) with
  | none => (none, store)
  | some p =>
    if now - p.2.createdAt > cfg.INPUT_SESSION_TTL_MS then
      (none, store.eraseP (fun e => e.1 == token))
    else (some p.2, store)

/-- Source `cleanupInputSessions`: purge every session older than
`INPUT_SESSION_TTL_MS`, answered or not. -/
def cleanupInputSessions (cfg : Config) (now : ℕ) (store : SessionStore) : SessionStore :=
  store.filter (fun e => ¬(now - e.2.createdAt > cfg.INPUT_SESSION_TTL_MS))

/-- Source `normalizeInputAnswers(session, payload)`: object guard,
non-empty clamped `name`, object guard on `answers`, and one non-empty
clamped answer per session question.  JS property access coerces the
numeric key `q.id` to its decimal string, so `rawAnswers[q.id]` and the
`?? rawAnswers[String(q.id)]` fallback read the same key; the answers
object keyed by id carries the same information as this per-question list
(duplicate ids store the same text). -/
def normalizeInputAnswers (session : InputSession) (payload : JVal) :
    Option (Str × List Str) :=
  if ¬isTruthyObject payload then none
  else
    let name := clampText (getProp payload "name".toList) 12
    if name = [] then none
    else
      let rawAnswers := getProp payload "answers".toList
      if ¬isTruthyObject rawAnswers then none
      else
        match mapOrNone (fun q =>
            let text := clampText (getProp rawAnswers (intToStr q.id)) 200
            if text = [] then none else some text) session.questions with
        | some answers => some (name, answers)
        | none => none

/-- Result of the answer-submission route (`alreadyAnswered` is the 409
ALREADY_USED response; the spec calls it ALREADY_ANSWERED). -/
inductive SubmitResult where
  | ok
  | alreadyAnswered
  | invalid
deriving DecidableEq

/-- Route `POST /api/input/session/:token/answers`, after the session has
been found: reject if already answered; validate; then store the keyword
sequence (session marker, name marker, one trimmed marker per
question-answer pair, with falsy entries filtered out) and stamp
`answeredAt`. -/
def submitAnswers (now : ℕ) (session : InputSession) (payload : JVal) :
    SubmitResult × InputSession :=
  if session.answeredAt.isSome then (.alreadyAnswered, session)
  else
    match normalizeInputAnswers session payload with
    | none => (.invalid, session)
    | some (name, answers) =>
      let keywords :=
        (("session:".toList ++ session.sessionId) ::
          ("name:".toList ++ name) ::
          (session.questions.zip answers).map
            (fun p => trim ('q' :: intToStr p.1.id ++ ':' :: p.2))).filter
          (fun s => ¬s.isEmpty)
      if keywords.isEmpty then (.invalid, session)
      else (.ok, { session with answeredAt := some now, keywords := some keywords })

/-! Helper lemmas about the queue operations. -/

theorem clearExpiredClaim_createdAt (cfg : Config) (now : ℕ) (j : Job) :
    (clearExpiredClaim cfg now j).createdAt = j.createdAt := by
  unfold clearExpiredClaim
  cases j.claimedAt <;> simp <;> split <;> rfl

theorem clearExpiredClaim_failCount (cfg : Config) (now : ℕ) (j : Job) :
    (clearExpiredClaim cfg now j).failCount = j.failCount := by
  unfold clearExpiredClaim
  cases j.claimedAt <;> simp <;> split <;> rfl

theorem clearExpiredClaim_id (cfg : Config) (now : ℕ) (j : Job) :
    (clearExpiredClaim cfg now j).id = j.id := by
  unfold clearExpiredClaim
  cases j.claimedAt <;> simp <;> split <;> rfl

theorem clearExpiredClaim_of_fresh (cfg : Config) (now : ℕ) (j : Job)
    (h : ∀ t, j.claimedAt = some t → now - t ≤ cfg.PRINT_CLAIM_TTL_MS) :
    clearExpiredClaim cfg now j = j := by
  unfold clearExpiredClaim
  cases ht : j.claimedAt with
  | none => rfl
  | some t =>
    have := h t ht
    simp only []
    split
    · omega
    · rfl

theorem clearExpiredClaim_of_expired (cfg : Config) (now : ℕ) (j : Job) (t : ℕ)
    (ht : j.claimedAt = some t) (h : now - t > cfg.PRINT_CLAIM_TTL_MS) :
    (clearExpiredClaim cfg now j).claimedAt = none ∧
      (clearExpiredClaim cfg now j).claimedBy = none := by
  unfold clearExpiredClaim
  rw [ht]
  simp [h]

/-- Bool form of the job-retention condition used in the filter view. -/
def keepJob (cfg : Config) (now : ℕ) (j : Job) : Bool :=
  now - j.createdAt ≤ cfg.PRINT_JOB_TTL_MS ∧ j.failCount < MAX_FAILS

theorem cleanupQueue_eq (cfg : Config) (now : ℕ) (q : List Job) :
    cleanupQueue cfg now q =
      (q.map (clearExpiredClaim cfg now)).filter (keepJob cfg now) := by
  induction q with
  | nil => rfl
  | cons job rest ih =>
    unfold cleanupQueue
    simp only [List.map_cons, List.filter_cons]
    by_cases hkeep : keepJob cfg now (clearExpiredClaim cfg now job)
    · have hcond : ¬(now - (clearExpiredClaim cfg now job).createdAt > cfg.PRINT_JOB_TTL_MS ∨
          (clearExpiredClaim cfg now job).failCount ≥ MAX_FAILS) := by
        simp only [keepJob, decide_eq_true_eq] at hkeep
        omega
      simp only [hcond, if_false, hkeep, if_true, ih]
    · have hcond : now - (clearExpiredClaim cfg now job).createdAt > cfg.PRINT_JOB_TTL_MS ∨
          (clearExpiredClaim cfg now job).failCount ≥ MAX_FAILS := by
        simp only [keepJob, decide_eq_true_eq] at hkeep
        omega
      simp only [hcond, if_true, hkeep, if_false, ih]
      simp [Bool.not_eq_true] at hkeep
      simp [hkeep, ih]

theorem claimFirst_all_claimed (clientId : Str) (now : ℕ) (q : List Job)
    (h : ∀ j ∈ q, j.claimedAt.isSome) : claimFirst clientId now q = none := by
  induction q with
  | nil => rfl
  | cons j rest ih =>
    have hj := h j (List.mem_cons_self j rest)
    unfold claimFirst
    simp only [hj, if_true]
    rw [ih fun x hx => h x (List.mem_cons_of_mem j hx)]
    rfl

theorem claimFirst_split (clientId : Str) (now : ℕ) (pre : List Job) (j : Job)
    (post : List Job) (hpre : ∀ p ∈ pre, p.claimedAt.isSome) (hj : j.claimedAt = none) :
    claimFirst clientId now (pre ++ j :: post) =
      some ({ j with claimedAt := some now, claimedBy := some clientId },
        pre ++ { j with claimedAt := some now, claimedBy := some clientId } :: post) := by
  induction pre with
  | nil =>
    unfold claimFirst
    simp [hj]
  | cons p rest ih =>
    have hp := hpre p (List.mem_cons_self p rest)
    have ih2 := ih fun x hx => hpre x (List.mem_cons_of_mem p hx)
    unfold claimFirst
    simp [List.cons_append, hp, ih2]

theorem claimFirst_mem (clientId : Str) (now : ℕ) (q : List Job) (c : Job) (q2 : List Job)
    (h : claimFirst clientId now q = some (c, q2)) :
    ∀ j' ∈ q2, j' ∈ q ∨
      ∃ j ∈ q, j' = { j with claimedAt := some now, claimedBy := some clientId } := by
  induction q generalizing c q2 with
  | nil => exact Option.noConfusion h
  | cons j rest ih =>
    unfold claimFirst at h
    by_cases hc : j.claimedAt.isSome
    · simp only [hc, if_true] at h
      cases hrec : claimFirst clientId now rest with
      | none => rw [hrec] at h; simp at h
      | some p =>
        rw [hrec] at h
        simp only [Option.map_some'] at h
        cases h
        intro j' hj'
        rcases List.mem_cons.mp hj' with hj1 | hj2
        · exact Or.inl (by simp [hj1])
        · rcases ih p.1 p.2 (by rw [hrec]) j' hj2 with h1 | ⟨j0, hj0, hje⟩
          · exact Or.inl (List.mem_cons_of_mem _ h1)
          · exact Or.inr ⟨j0, List.mem_cons_of_mem _ hj0, hje⟩
    · simp only [hc, if_false] at h
      cases h
      intro j' hj'
      rcases List.mem_cons.mp hj' with hj1 | hj2
      · exact Or.inr ⟨j, List.mem_cons_self j rest, hj1⟩
      · exact Or.inl (List.mem_cons_of_mem _ hj2)

theorem reportOutcome_notFound (jobId : Str) (status : JVal) (q : List Job)
    (h : ∀ j ∈ q, j.id ≠ jobId) : reportOutcome jobId status q = (.notFound, q) := by
  induction q with
  | nil => rfl
  | cons j rest ih =>
    have hj := h j (List.mem_cons_self j rest)
    unfold reportOutcome
    simp only [hj, if_false]
    rw [ih fun x hx => h x (List.mem_cons_of_mem j hx)]

theorem reportOutcome_cons_of_ne (jobId : Str) (status : JVal) (p : Job) (rest : List Job)
    (hp : p.id ≠ jobId) :
    reportOutcome jobId status (p :: rest) =
      ((reportOutcome jobId status rest).1, p :: (reportOutcome jobId status rest).2) := by
  simp only [reportOutcome, hp, if_false]

theorem reportOutcome_printed (pre : List Job) (job : Job) (post : List Job)
    (h : ∀ p ∈ pre, p.id ≠ job.id) :
    reportOutcome job.id (.jstr "printed".toList) (pre ++ job :: post) =
      (.ok, pre ++ post) := by
  induction pre with
  | nil => simp [reportOutcome, applyOutcome]
  | cons p rest ih =>
    have hp := h p (List.mem_cons_self p rest)
    have ih2 := ih fun x hx => h x (List.mem_cons_of_mem p hx)
    rw [List.cons_append, reportOutcome_cons_of_ne _ _ _ _ hp, ih2]
    rfl

/-- The job as rewritten by a `failed` report: `failCount` incremented and
the claim fields cleared. -/
def failedUpdate (job : Job) : Job :=
  { job with failCount := job.failCount + 1, claimedAt := none, claimedBy := none }

theorem reportOutcome_failed_keep (pre : List Job) (job : Job) (post : List Job)
    (h : ∀ p ∈ pre, p.id ≠ job.id) (hf : job.failCount + 1 < MAX_FAILS) :
    reportOutcome job.id (.jstr "failed".toList) (pre ++ job :: post) =
      (.ok, pre ++ failedUpdate job :: post) := by
  induction pre with
  | nil =>
    have hnf : ¬(job.failCount + 1 ≥ MAX_FAILS) := by omega
    simp [reportOutcome, applyOutcome, hnf, failedUpdate]
  | cons p rest ih =>
    have hp := h p (List.mem_cons_self p rest)
    have ih2 := ih fun x hx => h x (List.mem_cons_of_mem p hx)
    rw [List.cons_append, reportOutcome_cons_of_ne _ _ _ _ hp, ih2]
    rfl

theorem reportOutcome_failed_evict (pre : List Job) (job : Job) (post : List Job)
    (h : ∀ p ∈ pre, p.id ≠ job.id) (hf : MAX_FAILS ≤ job.failCount + 1) :
    reportOutcome job.id (.jstr "failed".toList) (pre ++ job :: post) =
      (.ok, pre ++ post) := by
  induction pre with
  | nil =>
    simp [reportOutcome, applyOutcome, show job.failCount + 1 ≥ MAX_FAILS from hf]
  | cons p rest ih =>
    have hp := h p (List.mem_cons_self p rest)
    have ih2 := ih fun x hx => h x (List.mem_cons_of_mem p hx)
    rw [List.cons_append, reportOutcome_cons_of_ne _ _ _ _ hp, ih2]
    rfl

theorem applyOutcome_invalid (status : JVal) (job : Job) (rest : List Job)
    (hs : ∀ s, status = .jstr s → s ≠ "printed".toList ∧ s ≠ "failed".toList) :
    applyOutcome status job rest = (.invalidStatus, job :: rest) := by
  cases status with
  | jstr s =>
    have ⟨h1, h2⟩ := hs s rfl
    simp only [applyOutcome]
    rw [if_neg h1, if_neg h2]
  | jundefined => rfl
  | jnull => rfl
  | jbool b => rfl
  | jnum n => rfl
  | jarr xs => rfl
  | jobj fs => rfl

theorem reportOutcome_invalid (jobId : Str) (status : JVal) (pre : List Job) (job : Job)
    (post : List Job) (hid : job.id = jobId) (h : ∀ p ∈ pre, p.id ≠ jobId)
    (hs : ∀ s, status = .jstr s → s ≠ "printed".toList ∧ s ≠ "failed".toList) :
    reportOutcome jobId status (pre ++ job :: post) =
      (.invalidStatus, pre ++ job :: post) := by
  induction pre with
  | nil =>
    unfold reportOutcome
    simp only [List.nil_append, hid, if_pos rfl]
    exact applyOutcome_invalid status job post hs
  | cons p rest ih =>
    have hp := h p (List.mem_cons_self p rest)
    have ih2 := ih fun x hx => h x (List.mem_cons_of_mem p hx)
    rw [List.cons_append, reportOutcome_cons_of_ne _ _ _ _ hp, ih2]

theorem applyOutcome_mono (status : JVal) (job : Job) (rest : List Job) :
    ∀ j' ∈ (applyOutcome status job rest).2,
      (j' ∈ job :: rest ∨ j' = failedUpdate job) := by
  cases status with
  | jstr s =>
    by_cases h1 : s = "printed".toList
    · intro j' hj'
      simp only [applyOutcome, h1, if_pos rfl] at hj'
      exact Or.inl (List.mem_cons_of_mem _ hj')
    · by_cases h2 : s = "failed".toList
      · intro j' hj'
        simp only [applyOutcome, h1, if_false, h2, if_pos rfl] at hj'
        by_cases h3 : job.failCount + 1 ≥ MAX_FAILS
        · simp only [h3, if_true] at hj'
          exact Or.inl (List.mem_cons_of_mem _ hj')
        · simp only [h3, if_false] at hj'
          rcases List.mem_cons.mp hj' with he | hm
          · exact Or.inr (by rw [he]; rfl)
          · exact Or.inl (List.mem_cons_of_mem _ hm)
      · intro j' hj'
        simp only [applyOutcome, h1, if_false, h2, if_false] at hj'
        exact Or.inl hj'
  | jundefined => intro j' hj'; exact Or.inl hj'
  | jnull => intro j' hj'; exact Or.inl hj'
  | jbool b => intro j' hj'; exact Or.inl hj'
  | jnum n => intro j' hj'; exact Or.inl hj'
  | jarr xs => intro j' hj'; exact Or.inl hj'
  | jobj fs => intro j' hj'; exact Or.inl hj'

theorem reportOutcome_mono (jobId : Str) (status : JVal) (q : List Job) :
    ∀ j' ∈ (reportOutcome jobId status q).2,
      ∃ j ∈ q, j.id = j'.id ∧ j.failCount ≤ j'.failCount := by
  induction q with
  | nil => simp [reportOutcome]
  | cons j rest ih =>
    intro j' hj'
    unfold reportOutcome at hj'
    by_cases hid : j.id = jobId
    · simp only [hid, if_pos rfl] at hj'
      rcases applyOutcome_mono status j rest j' hj' with hm | he
      · rcases List.mem_cons.mp hm with he2 | hm2
        · exact ⟨j, List.mem_cons_self j rest, by simp [he2], by simp [he2]⟩
        · exact ⟨j', List.mem_cons_of_mem _ hm2, rfl, le_refl _⟩
      · refine ⟨j, List.mem_cons_self j rest, ?_, ?_⟩
        · rw [he]; rfl
        · rw [he]; simp [failedUpdate]
    · simp only [hid, if_false] at hj'
      rcases List.mem_cons.mp hj' with he | hm
      · exact ⟨j, List.mem_cons_self j rest, by simp [he], by simp [he]⟩
      · rcases ih j' hm with ⟨j0, hj0, hid0, hfc0⟩
        exact ⟨j0, List.mem_cons_of_mem _ hj0, hid0, hfc0⟩

/-! Helper lemmas about the retry loop, validators and strings. -/

theorem attemptLoop3_agree {α : Type} (f g : ℕ → Except Str α) (dflt : Str)
    (h1 : f 1 = g 1) (h2 : f 2 = g 2) (h3 : f 3 = g 3) :
    attemptLoop f dflt 3 1 none = attemptLoop g dflt 3 1 none := by
  simp only [attemptLoop, h1, h2, h3]

theorem attemptLoop3_ok {α : Type} (f : ℕ → Except Str α) (dflt : Str) (i : ℕ) (v : α)
    (hi : 1 ≤ i) (hi3 : i ≤ 3)
    (hprev : ∀ j, 1 ≤ j → j < i → ∃ e, f j = .error e) (hok : f i = .ok v) :
    attemptLoop f dflt 3 1 none = .ok v := by
  interval_cases i
  · simp [attemptLoop, hok]
  · obtain ⟨e1, he1⟩ := hprev 1 (by omega) (by omega)
    simp [attemptLoop, he1, hok]
  · obtain ⟨e1, he1⟩ := hprev 1 (by omega) (by omega)
    obtain ⟨e2, he2⟩ := hprev 2 (by omega) (by omega)
    simp [attemptLoop, he1, he2, hok]

theorem attemptLoop3_err {α : Type} (f : ℕ → Except Str α) (dflt : Str) (e1 e2 e3 : Str)
    (h1 : f 1 = .error e1) (h2 : f 2 = .error e2) (h3 : f 3 = .error e3) :
    attemptLoop f dflt 3 1 none = .error e3 := by
  simp [attemptLoop, h1, h2, h3]

theorem attemptLoop3_err_inv {α : Type} (f : ℕ → Except Str α) (dflt : Str) (e : Str)
    (h : attemptLoop f dflt 3 1 none = .error e) :
    (∃ e1, f 1 = .error e1) ∧ (∃ e2, f 2 = .error e2) ∧ f 3 = .error e := by
  cases hf1 : f 1 with
  | ok a => simp [attemptLoop, hf1] at h
  | error x1 =>
    cases hf2 : f 2 with
    | ok a => simp [attemptLoop, hf1, hf2] at h
    | error x2 =>
      cases hf3 : f 3 with
      | ok a => simp [attemptLoop, hf1, hf2, hf3] at h
      | error x3 =>
        simp [attemptLoop, hf1, hf2, hf3] at h
        exact ⟨⟨x1, rfl⟩, ⟨x2, rfl⟩, by rw [h]⟩

theorem attemptLoop3_ok_inv {α : Type} (f : ℕ → Except Str α) (dflt : Str) (v : α)
    (h : attemptLoop f dflt 3 1 none = .ok v) :
    ∃ i, 1 ≤ i ∧ i ≤ 3 ∧ f i = .ok v := by
  cases hf1 : f 1 with
  | ok a =>
    simp [attemptLoop, hf1] at h
    exact ⟨1, by omega, by omega, by rw [hf1, h]⟩
  | error x1 =>
    cases hf2 : f 2 with
    | ok a =>
      simp [attemptLoop, hf1, hf2] at h
      exact ⟨2, by omega, by omega, by rw [hf2, h]⟩
    | error x2 =>
      cases hf3 : f 3 with
      | ok a =>
        simp [attemptLoop, hf1, hf2, hf3] at h
        exact ⟨3, by omega, by omega, by rw [hf3, h]⟩
      | error x3 => simp [attemptLoop, hf1, hf2, hf3] at h

theorem mapOrNone_mem {α β : Type} (f : α → Option β) (xs : List α) (ys : List β)
    (h : mapOrNone f xs = some ys) : ∀ y ∈ ys, ∃ x ∈ xs, f x = some y := by
  induction xs generalizing ys with
  | nil =>
    cases h
    intro y hy
    cases hy
  | cons x rest ih =>
    unfold mapOrNone at h
    cases hfx : f x with
    | none => rw [hfx] at h; simp at h
    | some y0 =>
      rw [hfx] at h
      cases hrec : mapOrNone f rest with
      | none => rw [hrec] at h; simp at h
      | some ys0 =>
        rw [hrec] at h
        simp only [] at h
        cases h
        intro y hy
        rcases List.mem_cons.mp hy with h1 | h2
        · exact ⟨x, List.mem_cons_self x rest, by rw [hfx, h1]⟩
        · rcases ih ys0 hrec y h2 with ⟨x0, hx0, hfx0⟩
          exact ⟨x0, List.mem_cons_of_mem _ hx0, hfx0⟩

theorem mapOrNone_length {α β : Type} (f : α → Option β) (xs : List α) (ys : List β)
    (h : mapOrNone f xs = some ys) : ys.length = xs.length := by
  induction xs generalizing ys with
  | nil => cases h; rfl
  | cons x rest ih =>
    unfold mapOrNone at h
    cases hfx : f x with
    | none => rw [hfx] at h; simp at h
    | some y0 =>
      rw [hfx] at h
      cases hrec : mapOrNone f rest with
      | none => rw [hrec] at h; simp at h
      | some ys0 =>
        rw [hrec] at h
        simp only [] at h
        cases h
        simp [ih ys0 hrec]

theorem clampText_length (v : JVal) (m : ℕ) : (clampText v m).length ≤ m := by
  unfold clampText
  dsimp only
  generalize trim (jsToString (nullishToStr v)) = s
  split
  · simp only [List.length_take]
    omega
  · omega

theorem toStatInt_some (v : JVal) (i : ℤ) (h : toStatInt v = some i) :
    ∃ n, toNumber v = some n ∧ n.toInt? = some i ∧ 1 ≤ i ∧ i ≤ 100 := by
  unfold toStatInt at h
  split at h
  next n heq =>
    split at h
    next j heq2 =>
      split at h
      · cases h
      · cases h
        exact ⟨n, heq, heq2, by omega, by omega⟩
    next heq2 => cases h
  next heq => cases h

theorem dropWhile_append_singleton_ne {p : Char → Bool} (xs : Str) (c : Char)
    (hc : p c = false) : (xs ++ [c]).dropWhile p ≠ [] := by
  induction xs with
  | nil => simp [List.dropWhile, hc]
  | cons x rest ih =>
    simp only [List.cons_append, List.dropWhile]
    cases hx : p x
    · simp
    · simpa using ih

theorem trim_cons_ne (c : Char) (s : Str) (hc : isJsWs c = false) :
    trim (c :: s) ≠ [] := by
  unfold trim
  rw [List.dropWhile_cons, if_neg (by simp [hc])]
  intro hfalse
  rw [List.reverse_eq_nil_iff] at hfalse
  have := dropWhile_append_singleton_ne (p := isJsWs) s.reverse c hc
  rw [List.reverse_cons] at hfalse
  exact this hfalse

theorem cleanupQueue_mem_of (cfg : Config) (now : ℕ) (q : List Job) (j : Job)
    (hj : j ∈ q) (h1 : now - j.createdAt ≤ cfg.PRINT_JOB_TTL_MS)
    (h2 : j.failCount < MAX_FAILS) :
    clearExpiredClaim cfg now j ∈ cleanupQueue cfg now q := by
  rw [cleanupQueue_eq]
  refine List.mem_filter.mpr ⟨List.mem_map_of_mem _ hj, ?_⟩
  simp only [keepJob, clearExpiredClaim_createdAt, clearExpiredClaim_failCount,
    decide_eq_true_eq]
  omega

theorem cleanupQueue_mem_inv (cfg : Config) (now : ℕ) (q : List Job) (j' : Job)
    (h : j' ∈ cleanupQueue cfg now q) :
    ∃ j ∈ q, j' = clearExpiredClaim cfg now j ∧
      now - j.createdAt ≤ cfg.PRINT_JOB_TTL_MS ∧ j.failCount < MAX_FAILS := by
  rw [cleanupQueue_eq] at h
  obtain ⟨hmem, hkeep⟩ := List.mem_filter.mp h
  obtain ⟨j, hjq, hje⟩ := List.mem_map.mp hmem
  refine ⟨j, hjq, hje.symm, ?_⟩
  rw [← hje] at hkeep
  simp only [keepJob, clearExpiredClaim_createdAt, clearExpiredClaim_failCount,
    decide_eq_true_eq] at hkeep
  omega

theorem claimNext_mono (cfg : Config) (clientId : Str) (now : ℕ) (q : List Job) :
    ∀ j' ∈ (claimNext cfg clientId now q).2,
      ∃ j ∈ q, j.id = j'.id ∧ j.failCount = j'.failCount := by
  intro j' hj'
  unfold claimNext at hj'
  dsimp only at hj'
  cases hcf : claimFirst clientId now (cleanupQueue cfg now q) with
  | none =>
    rw [hcf] at hj'
    simp only [] at hj'
    obtain ⟨j, hjq, hje, _, _⟩ := cleanupQueue_mem_inv cfg now q j' hj'
    exact ⟨j, hjq, by rw [hje, clearExpiredClaim_id], by rw [hje, clearExpiredClaim_failCount]⟩
  | some p =>
    rw [hcf] at hj'
    simp only [] at hj'
    rcases claimFirst_mem clientId now _ p.1 p.2 (by rw [hcf]) j' hj' with hm | ⟨j0, hj0, hje⟩
    · obtain ⟨j, hjq, hje, _, _⟩ := cleanupQueue_mem_inv cfg now q j' hm
      exact ⟨j, hjq, by rw [hje, clearExpiredClaim_id], by rw [hje, clearExpiredClaim_failCount]⟩
    · obtain ⟨j, hjq, hje0, _, _⟩ := cleanupQueue_mem_inv cfg now q j0 hj0
      refine ⟨j, hjq, ?_, ?_⟩
      · rw [hje, hje0, clearExpiredClaim_id]
      · rw [hje, hje0, clearExpiredClaim_failCount]

/-! Claim theorems for the print-job queue. -/

/-- C1: `claimNext` first runs a GC pass, then claims the first job in
insertion order whose claim is absent, stamping it with the current time
and the claimant id; if every job of the GC'd queue is claimed it returns
NO_JOB_AVAILABLE (`none`) leaving the GC'd queue unchanged.  In
particular, after enqueueing fresh jobs A then B, `claimNext` claims A;
and a second `claimNext` by a different claimant on a single-job queue
whose claim is still live returns NO_JOB_AVAILABLE. -/
theorem claim1_claimNext_spec :
    (∀ (cfg : Config) (clientId : Str) (now : ℕ) (q : List Job),
      (∀ j ∈ cleanupQueue cfg now q, j.claimedAt.isSome) →
        claimNext cfg clientId now q = (none, cleanupQueue cfg now q)) ∧
    (∀ (cfg : Config) (clientId : Str) (now : ℕ) (q pre : List Job) (j : Job)
        (post : List Job),
      cleanupQueue cfg now q = pre ++ j :: post →
      (∀ p ∈ pre, p.claimedAt.isSome) → j.claimedAt = none →
        claimNext cfg clientId now q =
          (some { j with claimedAt := some now, claimedBy := some clientId },
            pre ++ { j with claimedAt := some now, claimedBy := some clientId } :: post)) ∧
    (∀ (cfg : Config) (clientId : Str) (now : ℕ) (idA imgA : Str) (metaA : JVal)
        (tA : ℕ) (idB imgB : Str) (metaB : JVal) (tB : ℕ),
      now - tA ≤ cfg.PRINT_JOB_TTL_MS → now - tB ≤ cfg.PRINT_JOB_TTL_MS →
        claimNext cfg clientId now
            (enqueuePrintJob (enqueuePrintJob [] idA imgA metaA tA) idB imgB metaB tB) =
          (some ⟨idA, imgA, metaA, tA, some now, some clientId, 0⟩,
            [⟨idA, imgA, metaA, tA, some now, some clientId, 0⟩,
             ⟨idB, imgB, metaB, tB, none, none, 0⟩])) ∧
    (∀ (cfg : Config) (clientId2 : Str) (now : ℕ) (j : Job) (t : ℕ),
      j.claimedAt = some t → now - t ≤ cfg.PRINT_CLAIM_TTL_MS →
      now - j.createdAt ≤ cfg.PRINT_JOB_TTL_MS → j.failCount < MAX_FAILS →
        claimNext cfg clientId2 now [j] = (none, [j])) := by
  refine ⟨?_, ?_, ?_, ?_⟩
  · intro cfg clientId now q hall
    unfold claimNext
    dsimp only
    rw [claimFirst_all_claimed clientId now _ hall]
  · intro cfg clientId now q pre j post heq hpre hj
    unfold claimNext
    dsimp only
    rw [heq, claimFirst_split clientId now pre j post hpre hj]
  · intro cfg clientId now idA imgA metaA tA idB imgB metaB tB hA hB
    have e1 : enqueuePrintJob (enqueuePrintJob [] idA imgA metaA tA) idB imgB metaB tB =
        [⟨idA, imgA, metaA, tA, none, none, 0⟩, ⟨idB, imgB, metaB, tB, none, none, 0⟩] := rfl
    rw [e1]
    have cA : ¬(now - tA > cfg.PRINT_JOB_TTL_MS ∨ (0 : ℕ) ≥ MAX_FAILS) := by
      simp only [MAX_FAILS]
      omega
    have cB : ¬(now - tB > cfg.PRINT_JOB_TTL_MS ∨ (0 : ℕ) ≥ MAX_FAILS) := by
      simp only [MAX_FAILS]
      omega
    have hclean : cleanupQueue cfg now
        [(⟨idA, imgA, metaA, tA, none, none, 0⟩ : Job), ⟨idB, imgB, metaB, tB, none, none, 0⟩] =
        [(⟨idA, imgA, metaA, tA, none, none, 0⟩ : Job), ⟨idB, imgB, metaB, tB, none, none, 0⟩] := by
      simp only [cleanupQueue, clearExpiredClaim]
      split_ifs <;>
        first
          | rfl
          | (exfalso; simp only [MAX_FAILS] at *; omega)
    simp [claimNext, hclean, claimFirst]
  · intro cfg clientId2 now j t ht hclaim hage hfc
    have hclear : clearExpiredClaim cfg now j = j := by
      apply clearExpiredClaim_of_fresh
      intro t' ht'
      rw [ht] at ht'
      cases ht'
      exact hclaim
    have hcond : ¬(now - j.createdAt > cfg.PRINT_JOB_TTL_MS ∨ j.failCount ≥ MAX_FAILS) := by
      omega
    have hclean : cleanupQueue cfg now [j] = [j] := by
      unfold cleanupQueue
      rw [hclear]
      simp [hcond, cleanupQueue]
    have hsome : j.claimedAt.isSome := by rw [ht]; rfl
    simp [claimNext, hclean, claimFirst, hsome]

/-- C1 witness: a concrete two-job enqueue is claimed at job A, and a
second claim on a freshly claimed single-job queue gets NO_JOB_AVAILABLE. -/
theorem claim1_witness :
    claimNext {} "w1".toList 300
        (enqueuePrintJob (enqueuePrintJob [] "A".toList "i".toList (.jobj []) 100)
          "B".toList "i2".toList (.jobj []) 200) =
      (some ⟨"A".toList, "i".toList, .jobj [], 100, some 300, some "w1".toList, 0⟩,
        [⟨"A".toList, "i".toList, .jobj [], 100, some 300, some "w1".toList, 0⟩,
         ⟨"B".toList, "i2".toList, .jobj [], 200, none, none, 0⟩]) ∧
    claimNext {} "w2".toList 301
        [⟨"A".toList, "i".toList, .jobj [], 100, some 300, some "w1".toList, 0⟩] =
      (none, [⟨"A".toList, "i".toList, .jobj [], 100, some 300, some "w1".toList, 0⟩]) :=
  ⟨claim1_claimNext_spec.2.2.1 {} "w1".toList 300 "A".toList "i".toList (.jobj []) 100
      "B".toList "i2".toList (.jobj []) 200 (by decide) (by decide),
   claim1_claimNext_spec.2.2.2 {} "w2".toList 301
      ⟨"A".toList, "i".toList, .jobj [], 100, some 300, some "w1".toList, 0⟩ 300
      rfl (by decide) (by decide) (by decide)⟩

/-- C2: for a job present in the queue, a `printed` report removes it; a
`failed` report increments its `failCount` and clears its claim, except
that a `failCount` reaching `MAX_FAILS` evicts the job instead; any other
status value yields INVALID_STATUS with the queue unchanged; an absent
`jobId` yields NOT_FOUND with no change. -/
theorem claim2_reportOutcome_spec :
    (∀ (job : Job), (failedUpdate job).failCount = job.failCount + 1 ∧
      (failedUpdate job).claimedAt = none ∧ (failedUpdate job).claimedBy = none ∧
      (failedUpdate job).id = job.id ∧ (failedUpdate job).createdAt = job.createdAt) ∧
    (∀ (pre : List Job) (job : Job) (post : List Job), (∀ p ∈ pre, p.id ≠ job.id) →
      reportOutcome job.id (.jstr "printed".toList) (pre ++ job :: post) =
        (.ok, pre ++ post)) ∧
    (∀ (pre : List Job) (job : Job) (post : List Job), (∀ p ∈ pre, p.id ≠ job.id) →
      job.failCount + 1 < MAX_FAILS →
      reportOutcome job.id (.jstr "failed".toList) (pre ++ job :: post) =
        (.ok, pre ++ failedUpdate job :: post)) ∧
    (∀ (pre : List Job) (job : Job) (post : List Job), (∀ p ∈ pre, p.id ≠ job.id) →
      MAX_FAILS ≤ job.failCount + 1 →
      reportOutcome job.id (.jstr "failed".toList) (pre ++ job :: post) =
        (.ok, pre ++ post)) ∧
    (∀ (jobId : Str) (status : JVal) (pre : List Job) (job : Job) (post : List Job),
      job.id = jobId → (∀ p ∈ pre, p.id ≠ jobId) →
      (∀ s, status = .jstr s → s ≠ "printed".toList ∧ s ≠ "failed".toList) →
      reportOutcome jobId status (pre ++ job :: post) =
        (.invalidStatus, pre ++ job :: post)) ∧
    (∀ (jobId : Str) (status : JVal) (q : List Job), (∀ j ∈ q, j.id ≠ jobId) →
      reportOutcome jobId status q = (.notFound, q)) :=
  ⟨fun _ => ⟨rfl, rfl, rfl, rfl, rfl⟩,
   reportOutcome_printed, reportOutcome_failed_keep, reportOutcome_failed_evict,
   fun jobId status pre job post hid h hs =>
     reportOutcome_invalid jobId status pre job post hid h hs,
   reportOutcome_notFound⟩

/-- C2 witness: concrete printed/failed/invalid/absent reports. -/
theorem claim2_witness :
    reportOutcome "A".toList (.jstr "printed".toList)
        [⟨"Z".toList, "z".toList, .jobj [], 1, none, none, 0⟩,
         ⟨"A".toList, "a".toList, .jobj [], 2, some 5, some "s".toList, 1⟩] =
      (.ok, [⟨"Z".toList, "z".toList, .jobj [], 1, none, none, 0⟩]) ∧
    reportOutcome "A".toList (.jstr "failed".toList)
        [⟨"A".toList, "a".toList, .jobj [], 2, some 5, some "s".toList, 1⟩] =
      (.ok, [⟨"A".toList, "a".toList, .jobj [], 2, none, none, 2⟩]) ∧
    reportOutcome "A".toList (.jstr "failed".toList)
        [⟨"A".toList, "a".toList, .jobj [], 2, some 5, some "s".toList, 2⟩] =
      (.ok, []) ∧
    reportOutcome "A".toList (.jstr "burnt".toList)
        [⟨"A".toList, "a".toList, .jobj [], 2, none, none, 0⟩] =
      (.invalidStatus, [⟨"A".toList, "a".toList, .jobj [], 2, none, none, 0⟩]) ∧
    reportOutcome "Q".toList (.jstr "printed".toList)
        [⟨"A".toList, "a".toList, .jobj [], 2, none, none, 0⟩] =
      (.notFound, [⟨"A".toList, "a".toList, .jobj [], 2, none, none, 0⟩]) := by
  refine ⟨?_, ?_, ?_, ?_, ?_⟩
  · exact claim2_reportOutcome_spec.2.1
      [⟨"Z".toList, "z".toList, .jobj [], 1, none, none, 0⟩]
      ⟨"A".toList, "a".toList, .jobj [], 2, some 5, some "s".toList, 1⟩ []
      (by intro p hp; simp at hp; rw [hp]; decide)
  · exact claim2_reportOutcome_spec.2.2.1 []
      ⟨"A".toList, "a".toList, .jobj [], 2, some 5, some "s".toList, 1⟩ []
      (by intro p hp; cases hp) (by decide)
  · exact claim2_reportOutcome_spec.2.2.2.1 []
      ⟨"A".toList, "a".toList, .jobj [], 2, some 5, some "s".toList, 2⟩ []
      (by intro p hp; cases hp) (by decide)
  · exact claim2_reportOutcome_spec.2.2.2.2.1 "A".toList (.jstr "burnt".toList) []
      ⟨"A".toList, "a".toList, .jobj [], 2, none, none, 0⟩ [] rfl
      (by intro p hp; cases hp)
      (by intro s hs; cases hs; exact ⟨by decide, by decide⟩)
  · exact claim2_reportOutcome_spec.2.2.2.2.2 "Q".toList (.jstr "printed".toList)
      [⟨"A".toList, "a".toList, .jobj [], 2, none, none, 0⟩]
      (by intro j hj; simp at hj; rw [hj]; decide)

/-- C3: one GC pass keeps exactly the jobs with `now - createdAt ≤ JOB_TTL`
and `failCount < MAX_FAILS` (regardless of claim state, which `keepJob`
never reads), applying the claim-release step to each survivor; the
release step never touches `failCount` and clears exactly the claims older
than `CLAIM_TTL`; and no queue operation (GC, claim, outcome report,
enqueue) ever decreases a surviving job's `failCount`. -/
theorem claim3_gc_spec :
    (∀ (cfg : Config) (now : ℕ) (q : List Job),
      cleanupQueue cfg now q =
        (q.map (clearExpiredClaim cfg now)).filter (keepJob cfg now)) ∧
    (∀ (cfg : Config) (now : ℕ) (q : List Job) (j : Job), j ∈ q →
      now - j.createdAt ≤ cfg.PRINT_JOB_TTL_MS → j.failCount < MAX_FAILS →
        clearExpiredClaim cfg now j ∈ cleanupQueue cfg now q) ∧
    (∀ (cfg : Config) (now : ℕ) (q : List Job) (j' : Job), j' ∈ cleanupQueue cfg now q →
      ∃ j ∈ q, j' = clearExpiredClaim cfg now j ∧
        now - j.createdAt ≤ cfg.PRINT_JOB_TTL_MS ∧ j.failCount < MAX_FAILS) ∧
    (∀ (cfg : Config) (now : ℕ) (j : Job),
      (clearExpiredClaim cfg now j).failCount = j.failCount) ∧
    (∀ (cfg : Config) (now : ℕ) (j : Job) (t : ℕ), j.claimedAt = some t →
      now - t > cfg.PRINT_CLAIM_TTL_MS →
        (clearExpiredClaim cfg now j).claimedAt = none ∧
        (clearExpiredClaim cfg now j).claimedBy = none) ∧
    (∀ (cfg : Config) (now : ℕ) (j : Job) (t : ℕ), j.claimedAt = some t →
      now - t ≤ cfg.PRINT_CLAIM_TTL_MS → clearExpiredClaim cfg now j = j) ∧
    (∀ (cfg : Config) (clientId : Str) (now : ℕ) (q : List Job),
      ∀ j' ∈ (claimNext cfg clientId now q).2,
        ∃ j ∈ q, j.id = j'.id ∧ j.failCount = j'.failCount) ∧
    (∀ (jobId : Str) (status : JVal) (q : List Job),
      ∀ j' ∈ (reportOutcome jobId status q).2,
        ∃ j ∈ q, j.id = j'.id ∧ j.failCount ≤ j'.failCount) ∧
    (∀ (q : List Job) (jobId imageBase64 : Str) (meta : JVal) (now : ℕ),
      ∀ j' ∈ enqueuePrintJob q jobId imageBase64 meta now,
        j' ∈ q ∨ j' = ⟨jobId, imageBase64, meta, now, none, none, 0⟩) := by
  refine ⟨cleanupQueue_eq, cleanupQueue_mem_of, cleanupQueue_mem_inv,
    clearExpiredClaim_failCount, clearExpiredClaim_of_expired, ?_, claimNext_mono,
    reportOutcome_mono, ?_⟩
  · intro cfg now j t ht hle
    apply clearExpiredClaim_of_fresh
    intro t' ht'
    rw [ht] at ht'
    cases ht'
    exact hle
  · intro q jobId imageBase64 meta now j' hj'
    unfold enqueuePrintJob at hj'
    rcases List.mem_append.mp hj' with h1 | h2
    · exact Or.inl h1
    · simp at h2
      exact Or.inr h2

/-- C3 witness: a concrete GC pass at the boundary conditions. -/
theorem claim3_witness :
    clearExpiredClaim {} 70000 ⟨"A".toList, "a".toList, .jobj [], 100, some 5, some "c".toList, 1⟩ ∈
      cleanupQueue {} 70000 [⟨"A".toList, "a".toList, .jobj [], 100, some 5, some "c".toList, 1⟩] ∧
    (clearExpiredClaim {} 70000
      ⟨"A".toList, "a".toList, .jobj [], 100, some 5, some "c".toList, 1⟩).claimedAt = none ∧
    (clearExpiredClaim {} 70000
      ⟨"A".toList, "a".toList, .jobj [], 100, some 5, some "c".toList, 1⟩).failCount = 1 :=
  ⟨claim3_gc_spec.2.1 {} 70000 _ _ (List.mem_cons_self _ _) (by decide) (by decide),
   (claim3_gc_spec.2.2.2.2.1 {} 70000
     ⟨"A".toList, "a".toList, .jobj [], 100, some 5, some "c".toList, 1⟩ 5 rfl (by decide)).1,
   claim3_gc_spec.2.2.2.1 {} 70000
     ⟨"A".toList, "a".toList, .jobj [], 100, some 5, some "c".toList, 1⟩⟩

/-- C9: the outcome report never reads the claim fields or any reporter
identity (the operation takes none): for arbitrary claim state `(a, b)` of
the target job — including entirely unclaimed — `printed` removes it and
`failed` increments its `failCount`, evicting at the fail cap. -/
theorem claim9_report_ignores_claims :
    (∀ (pre post : List Job) (id img : Str) (meta : JVal) (created fc : ℕ)
        (a : Option ℕ) (b : Option Str), (∀ p ∈ pre, p.id ≠ id) →
      reportOutcome id (.jstr "printed".toList)
          (pre ++ (⟨id, img, meta, created, a, b, fc⟩ : Job) :: post) =
        (.ok, pre ++ post)) ∧
    (∀ (pre post : List Job) (id img : Str) (meta : JVal) (created fc : ℕ)
        (a : Option ℕ) (b : Option Str), (∀ p ∈ pre, p.id ≠ id) →
      fc + 1 < MAX_FAILS →
      reportOutcome id (.jstr "failed".toList)
          (pre ++ (⟨id, img, meta, created, a, b, fc⟩ : Job) :: post) =
        (.ok, pre ++ (⟨id, img, meta, created, none, none, fc + 1⟩ : Job) :: post)) ∧
    (∀ (pre post : List Job) (id img : Str) (meta : JVal) (created fc : ℕ)
        (a : Option ℕ) (b : Option Str), (∀ p ∈ pre, p.id ≠ id) →
      MAX_FAILS ≤ fc + 1 →
      reportOutcome id (.jstr "failed".toList)
          (pre ++ (⟨id, img, meta, created, a, b, fc⟩ : Job) :: post) =
        (.ok, pre ++ post)) := by
  refine ⟨?_, ?_, ?_⟩
  · intro pre post id img meta created fc a b h
    exact reportOutcome_printed pre ⟨id, img, meta, created, a, b, fc⟩ post h
  · intro pre post id img meta created fc a b h hf
    exact reportOutcome_failed_keep pre ⟨id, img, meta, created, a, b, fc⟩ post h hf
  · intro pre post id img meta created fc a b h hf
    exact reportOutcome_failed_evict pre ⟨id, img, meta, created, a, b, fc⟩ post h hf

/-- C9 witness: an unclaimed job is removed by a `printed` report and
fail-incremented by a `failed` report from a reporter that never claimed
it. -/
theorem claim9_witness :
    reportOutcome "A".toList (.jstr "printed".toList)
        [⟨"A".toList, "a".toList, .jobj [], 2, none, none, 0⟩] = (.ok, []) ∧
    reportOutcome "A".toList (.jstr "failed".toList)
        [⟨"A".toList, "a".toList, .jobj [], 2, none, none, 2⟩] = (.ok, []) :=
  ⟨claim9_report_ignores_claims.1 [] [] "A".toList "a".toList (.jobj []) 2 0 none none
     (by intro p hp; cases hp),
   claim9_report_ignores_claims.2.2 [] [] "A".toList "a".toList (.jobj []) 2 2 none none
     (by intro p hp; cases hp) (by decide)⟩

/-- C10: expiry comparisons are strict.  A job whose age equals
`PRINT_JOB_TTL_MS` exactly survives a GC pass; a claim whose age equals
`PRINT_CLAIM_TTL_MS` exactly is not released; a session whose age equals
`INPUT_SESSION_TTL_MS` exactly is still returned by the session lookup
(store untouched) and kept by the sweep. -/
theorem claim10_strict_ttl :
    (∀ (cfg : Config) (now : ℕ) (j : Job), now - j.createdAt = cfg.PRINT_JOB_TTL_MS →
      j.failCount < MAX_FAILS →
        cleanupQueue cfg now [j] = [clearExpiredClaim cfg now j]) ∧
    (∀ (cfg : Config) (now : ℕ) (j : Job) (t : ℕ), j.claimedAt = some t →
      now - t = cfg.PRINT_CLAIM_TTL_MS → clearExpiredClaim cfg now j = j) ∧
    (∀ (cfg : Config) (now : ℕ) (tok : Str) (s : InputSession) (store : SessionStore),
      store.find? (fun p => p.1 == tok) = some (tok, s) →
      now - s.createdAt = cfg.INPUT_SESSION_TTL_MS →
        getInputSession cfg now tok store = (some s, store)) ∧
    (∀ (cfg : Config) (now : ℕ) (e : Str × InputSession) (store : SessionStore),
      e ∈ store → now - e.2.createdAt = cfg.INPUT_SESSION_TTL_MS →
        e ∈ cleanupInputSessions cfg now store) := by
  refine ⟨?_, ?_, ?_, ?_⟩
  · intro cfg now j hage hfc
    have hcond : ¬(now - (clearExpiredClaim cfg now j).createdAt > cfg.PRINT_JOB_TTL_MS ∨
        (clearExpiredClaim cfg now j).failCount ≥ MAX_FAILS) := by
      rw [clearExpiredClaim_createdAt, clearExpiredClaim_failCount]
      omega
    unfold cleanupQueue
    simp [hcond, cleanupQueue]
  · intro cfg now j t ht hage
    apply clearExpiredClaim_of_fresh
    intro t' ht'
    rw [ht] at ht'
    cases ht'
    omega
  · intro cfg now tok s store hfind hage
    unfold getInputSession
    rw [hfind]
    have : ¬(now - s.createdAt > cfg.INPUT_SESSION_TTL_MS) := by omega
    simp [this]
  · intro cfg now e store hmem hage
    unfold cleanupInputSessions
    refine List.mem_filter.mpr ⟨hmem, ?_⟩
    simp only [decide_eq_true_eq]
    omega

/-- C10 witness: boundary ages with the default configuration. -/
theorem claim10_witness :
    cleanupQueue {} 300100 [⟨"A".toList, "a".toList, .jobj [], 100, none, none, 0⟩] =
      [clearExpiredClaim {} 300100 ⟨"A".toList, "a".toList, .jobj [], 100, none, none, 0⟩] ∧
    clearExpiredClaim {} 60010 ⟨"A".toList, "a".toList, .jobj [], 5, some 10, some "c".toList, 0⟩ =
      ⟨"A".toList, "a".toList, .jobj [], 5, some 10, some "c".toList, 0⟩ ∧
    getInputSession {} 600050 "t".toList
        [("t".toList, ⟨"t".toList, 50, "sid".toList, [], none, none⟩)] =
      (some ⟨"t".toList, 50, "sid".toList, [], none, none⟩,
        [("t".toList, ⟨"t".toList, 50, "sid".toList, [], none, none⟩)]) ∧
    ("t".toList, (⟨"t".toList, 50, "sid".toList, [], none, none⟩ : InputSession)) ∈
      cleanupInputSessions {} 600050
        [("t".toList, ⟨"t".toList, 50, "sid".toList, [], none, none⟩)] :=
  ⟨claim10_strict_ttl.1 {} 300100 ⟨"A".toList, "a".toList, .jobj [], 100, none, none, 0⟩
     (by decide) (by decide),
   claim10_strict_ttl.2.1 {} 60010
     ⟨"A".toList, "a".toList, .jobj [], 5, some 10, some "c".toList, 0⟩ 10 rfl (by decide),
   claim10_strict_ttl.2.2.1 {} 600050 "t".toList ⟨"t".toList, 50, "sid".toList, [], none, none⟩
     [("t".toList, ⟨"t".toList, 50, "sid".toList, [], none, none⟩)] (by rfl) (by decide),
   claim10_strict_ttl.2.2.2 {} 600050
     ("t".toList, ⟨"t".toList, 50, "sid".toList, [], none, none⟩)
     [("t".toList, ⟨"t".toList, 50, "sid".toList, [], none, none⟩)]
     (List.mem_cons_self _ _) (by decide)⟩

/-! Claim theorems for the generator. -/

/-- A minimal well-formed backend card response, used as a concrete input. -/
def goodCardText : Str :=
  "\x7b\"name\":\"A\",\"class\":\"B\",\"stats\":\x7b\"sense\":1,\"logic\":2,\"luck\":3,\"charm\":4,\"vibe\":5\x7d,\"skill\":\"C\",\"description\":\"D\"\x7d".toList

/-- The card `goodCardText` validates to. -/
def goodCard : CardData :=
  ⟨"A".toList, "B".toList, ⟨1, 2, 3, 4, 5⟩, "C".toList, "D".toList⟩

/-- The same response wrapped in prose, so that a direct `JSON.parse`
fails and only the brace-span extraction can accept it. -/
def proseCardText : Str :=
  "here is your json: \x7b\"name\":\"A\",\"class\":\"B\",\"stats\":\x7b\"sense\":1,\"logic\":2,\"luck\":3,\"charm\":4,\"vibe\":5\x7d,\"skill\":\"C\",\"description\":\"D\"\x7d".toList

/-- C4: both generators make at most 3 attempts (the result depends only
on the first three call outcomes); the first attempt that parses and
validates short-circuits with its value; if all 3 attempts fail the
operation fails with the error of the last attempt; and an error result
implies all three attempts failed, so no per-attempt failure is surfaced
before exhaustion. -/
theorem claim4_retry_spec :
    (∀ calls calls' : ℕ → CallResult, (∀ i, 1 ≤ i → i ≤ 3 → calls i = calls' i) →
      generateCardData calls = generateCardData calls') ∧
    (∀ (calls : ℕ → CallResult) (i : ℕ) (v : CardData), 1 ≤ i → i ≤ 3 →
      (∀ j, 1 ≤ j → j < i → ∃ e, attemptCard (calls j) = .error e) →
      attemptCard (calls i) = .ok v → generateCardData calls = .ok v) ∧
    (∀ (calls : ℕ → CallResult) (e1 e2 e3 : Str),
      attemptCard (calls 1) = .error e1 → attemptCard (calls 2) = .error e2 →
      attemptCard (calls 3) = .error e3 → generateCardData calls = .error e3) ∧
    (∀ (calls : ℕ → CallResult) (e : Str), generateCardData calls = .error e →
      (∃ x1, attemptCard (calls 1) = .error x1) ∧
      (∃ x2, attemptCard (calls 2) = .error x2) ∧
      attemptCard (calls 3) = .error e) ∧
    (∀ calls calls' : ℕ → CallResult, (∀ i, 1 ≤ i → i ≤ 3 → calls i = calls' i) →
      generateQuestions calls = generateQuestions calls') ∧
    (∀ (calls : ℕ → CallResult) (i : ℕ) (v : QuestionSet), 1 ≤ i → i ≤ 3 →
      (∀ j, 1 ≤ j → j < i → ∃ e, attemptQuestions (calls j) = .error e) →
      attemptQuestions (calls i) = .ok v → generateQuestions calls = .ok v) ∧
    (∀ (calls : ℕ → CallResult) (e1 e2 e3 : Str),
      attemptQuestions (calls 1) = .error e1 → attemptQuestions (calls 2) = .error e2 →
      attemptQuestions (calls 3) = .error e3 → generateQuestions calls = .error e3) ∧
    (∀ (calls : ℕ → CallResult) (e : Str), generateQuestions calls = .error e →
      (∃ x1, attemptQuestions (calls 1) = .error x1) ∧
      (∃ x2, attemptQuestions (calls 2) = .error x2) ∧
      attemptQuestions (calls 3) = .error e) := by
  refine ⟨?_, ?_, ?_, ?_, ?_, ?_, ?_, ?_⟩
  · intro calls calls' h
    exact attemptLoop3_agree _ _ _
      (by rw [h 1 (by omega) (by omega)]) (by rw [h 2 (by omega) (by omega)])
      (by rw [h 3 (by omega) (by omega)])
  · intro calls i v h1 h3 hprev hok
    exact attemptLoop3_ok _ _ i v h1 h3 hprev hok
  · intro calls e1 e2 e3 h1 h2 h3
    exact attemptLoop3_err _ _ e1 e2 e3 h1 h2 h3
  · intro calls e h
    exact attemptLoop3_err_inv _ _ e h
  · intro calls calls' h
    exact attemptLoop3_agree _ _ _
      (by rw [h 1 (by omega) (by omega)]) (by rw [h 2 (by omega) (by omega)])
      (by rw [h 3 (by omega) (by omega)])
  · intro calls i v h1 h3 hprev hok
    exact attemptLoop3_ok _ _ i v h1 h3 hprev hok
  · intro calls e1 e2 e3 h1 h2 h3
    exact attemptLoop3_err _ _ e1 e2 e3 h1 h2 h3
  · intro calls e h
    exact attemptLoop3_err_inv _ _ e h

set_option maxRecDepth 40000 in
/-- C4 witness: a failing first attempt is retried and the second success
is returned; three failures surface the last error. -/
theorem claim4_witness :
    generateCardData (fun i => if i = 1 then .error "boom".toList else .ok goodCardText) =
      .ok goodCard ∧
    generateCardData (fun _ => .error "boom".toList) = .error "boom".toList ∧
    generateQuestions (fun _ => .error "qboom".toList) = .error "qboom".toList :=
  ⟨claim4_retry_spec.2.1 (fun i => if i = 1 then .error "boom".toList else .ok goodCardText)
      2 goodCard (by omega) (by omega)
      (by
        intro j hj1 hj2
        have : j = 1 := by omega
        rw [this]
        exact ⟨"boom".toList, rfl⟩)
      (by rfl),
   claim4_retry_spec.2.2.1 (fun _ => .error "boom".toList)
      "boom".toList "boom".toList "boom".toList rfl rfl rfl,
   claim4_retry_spec.2.2.2.2.2.2.1 (fun _ => .error "qboom".toList)
      "qboom".toList "qboom".toList "qboom".toList rfl rfl rfl⟩

set_option maxRecDepth 40000 in
/-- C5: a card-generation attempt on returned text first tries a direct
`JSON.parse` of the whole text (after the empty check); on failure it
re-parses the first-`\x7b`-to-last-`\x7d` span of the trimmed text,
accepting it if it parses (and then validating); with no such span or an
unparsable span the attempt fails with a parse error.  In particular the
prose-wrapped response `proseCardText` is accepted. -/
theorem claim5_parse_fallback :
    (∀ text : Str, trim text = [] → attemptCard (.ok text) = .error emptyRespMsg) ∧
    (∀ (text : Str) (v : JVal), trim text ≠ [] → parseJson text = some v →
      attemptCard (.ok text) =
        (match normalizeCardData v with
          | some c => .ok c
          | none => .error schemaFailMsg)) ∧
    (∀ text : Str, trim text ≠ [] → parseJson text = none →
      attemptCard (.ok text) =
        (match extractJsonObject (trim text) with
          | some v =>
            (match normalizeCardData v with
              | some c => .ok c
              | none => .error schemaFailMsg)
          | none => .error parseFailMsg)) ∧
    (∀ (text : Str) (s revE : ℕ), text ≠ [] →
      text.findIdx? (· = '\x7b') = some s →
      text.reverse.findIdx? (· = '\x7d') = some revE →
      extractJsonObject text =
        (if text.length - 1 - revE ≤ s then none
          else parseJson ((text.drop s).take (text.length - 1 - revE + 1 - s)))) ∧
    (∀ text : Str, text.findIdx? (· = '\x7b') = none → extractJsonObject text = none) ∧
    (∀ text : Str, text ≠ [] → text.reverse.findIdx? (· = '\x7d') = none →
      extractJsonObject text = none) ∧
    attemptCard (.ok proseCardText) = .ok goodCard := by
  refine ⟨?_, ?_, ?_, ?_, ?_, ?_, ?_⟩
  · intro text h
    simp [attemptCard, h]
  · intro text v h hp
    simp [attemptCard, h, hp]
  · intro text h hp
    simp only [attemptCard, h, if_neg h, hp]
    cases extractJsonObject (trim text) <;> rfl
  · intro text s revE hne h1 h2
    unfold extractJsonObject
    rw [if_neg hne, h1, h2]
  · intro text h1
    unfold extractJsonObject
    split
    · rfl
    · rw [h1]
  · intro text hne h2
    unfold extractJsonObject
    rw [if_neg hne, h2]
    cases text.findIdx? (· = '\x7b') <;> rfl
  · show attemptCard (.ok proseCardText) = .ok goodCard
    rfl

theorem normalizeCardData_stats (raw : JVal) (card : CardData)
    (h : normalizeCardData raw = some card) :
    toStatInt (getProp (getProp raw "stats".toList) "sense".toList) = some card.stats.sense ∧
    toStatInt (getProp (getProp raw "stats".toList) "logic".toList) = some card.stats.logic ∧
    toStatInt (getProp (getProp raw "stats".toList) "luck".toList) = some card.stats.luck ∧
    toStatInt (getProp (getProp raw "stats".toList) "charm".toList) = some card.stats.charm ∧
    toStatInt (getProp (getProp raw "stats".toList) "vibe".toList) = some card.stats.vibe := by
  unfold normalizeCardData at h
  split at h
  · cases h
  · dsimp only at h
    split at h
    · cases h
    · split at h
      · cases h
      · split at h
        next a b c d e h1 h2 h3 h4 h5 =>
          cases h
          exact ⟨h1, h2, h3, h4, h5⟩
        next => cases h

/-- The stats object of a candidate card, with a variable `sense` value
and fixed valid values for the other four stats. -/
def statsObjOf (s : JVal) : JVal :=
  .jobj [("sense".toList, s), ("logic".toList, .jnum ⟨2, 0⟩), ("luck".toList, .jnum ⟨3, 0⟩),
         ("charm".toList, .jnum ⟨4, 0⟩), ("vibe".toList, .jnum ⟨5, 0⟩)]

/-- A candidate card object whose text fields are all valid, with a
variable `sense` stat. -/
def cardCandOf (s : JVal) : JVal :=
  .jobj [("name".toList, .jstr "A".toList), ("class".toList, .jstr "B".toList),
         ("skill".toList, .jstr "C".toList), ("description".toList, .jstr "D".toList),
         ("stats".toList, statsObjOf s)]

/-- The card `cardCandOf` validates to when `sense` coerces to `i`. -/
def cardOf (i : ℤ) : CardData :=
  ⟨"A".toList, "B".toList, ⟨i, 2, 3, 4, 5⟩, "C".toList, "D".toList⟩

/-- C6 counterexample: the claim says a stat of the wrong type is
rejected, but the source coerces with `Number()` first, so the candidate
whose `sense` stat is the *string* `"50"` is accepted (as 50), not
rejected. -/
theorem claim6_cex :
    getProp (getProp (cardCandOf (.jstr "50".toList)) "stats".toList) "sense".toList =
      .jstr "50".toList ∧
    normalizeCardData (cardCandOf (.jstr "50".toList)) = some (cardOf 50) :=
  ⟨rfl, by decide⟩

/-- C6 (amended): validation accepts a candidate's stat exactly when its
`Number()` coercion is an exact integer in [1,100], storing that integer
unchanged (no rounding); a missing stat (`undefined`, coercing to NaN) or
a coercion that is no integer in range — 0, 101 and 3.5 in particular —
is rejected; wrong-typed stat values are accepted when they coerce to an
in-range integer. -/
theorem claim6_stat_validation :
    (∀ (raw : JVal) (card : CardData), normalizeCardData raw = some card →
      (∃ n, toNumber (getProp (getProp raw "stats".toList) "sense".toList) = some n ∧
        n.toInt? = some card.stats.sense ∧ 1 ≤ card.stats.sense ∧ card.stats.sense ≤ 100) ∧
      (∃ n, toNumber (getProp (getProp raw "stats".toList) "logic".toList) = some n ∧
        n.toInt? = some card.stats.logic ∧ 1 ≤ card.stats.logic ∧ card.stats.logic ≤ 100) ∧
      (∃ n, toNumber (getProp (getProp raw "stats".toList) "luck".toList) = some n ∧
        n.toInt? = some card.stats.luck ∧ 1 ≤ card.stats.luck ∧ card.stats.luck ≤ 100) ∧
      (∃ n, toNumber (getProp (getProp raw "stats".toList) "charm".toList) = some n ∧
        n.toInt? = some card.stats.charm ∧ 1 ≤ card.stats.charm ∧ card.stats.charm ≤ 100) ∧
      (∃ n, toNumber (getProp (getProp raw "stats".toList) "vibe".toList) = some n ∧
        n.toInt? = some card.stats.vibe ∧ 1 ≤ card.stats.vibe ∧ card.stats.vibe ≤ 100)) ∧
    (∀ raw : JVal, toStatInt (getProp (getProp raw "stats".toList) "sense".toList) = none →
      normalizeCardData raw = none) ∧
    normalizeCardData (cardCandOf (.jnum ⟨0, 0⟩)) = none ∧
    normalizeCardData (cardCandOf (.jnum ⟨101, 0⟩)) = none ∧
    normalizeCardData (cardCandOf (.jnum ⟨35, -1⟩)) = none ∧
    normalizeCardData (cardCandOf .jundefined) = none ∧
    normalizeCardData (cardCandOf (.jnum ⟨1, 0⟩)) = some (cardOf 1) ∧
    normalizeCardData (cardCandOf (.jnum ⟨100, 0⟩)) = some (cardOf 100) := by
  refine ⟨?_, ?_, by decide, by decide, by decide, by decide, by decide, by decide⟩
  · intro raw card h
    obtain ⟨h1, h2, h3, h4, h5⟩ := normalizeCardData_stats raw card h
    exact ⟨toStatInt_some _ _ h1, toStatInt_some _ _ h2, toStatInt_some _ _ h3,
      toStatInt_some _ _ h4, toStatInt_some _ _ h5⟩
  · intro raw hnone
    cases hh : normalizeCardData raw with
    | none => rfl
    | some card =>
      obtain ⟨h1, _, _, _, _⟩ := normalizeCardData_stats raw card hh
      rw [hnone] at h1
      cases h1

/-- C6 witness: the amended characterization applied at the in-range
integer 42 and at a NaN-coercing stat. -/
theorem claim6_witness :
    (∃ n, toNumber (getProp (getProp (cardCandOf (.jnum ⟨42, 0⟩)) "stats".toList)
        "sense".toList) = some n ∧
      n.toInt? = some (cardOf 42).stats.sense ∧ 1 ≤ (cardOf 42).stats.sense ∧
      (cardOf 42).stats.sense ≤ 100) ∧
    normalizeCardData (cardCandOf (.jstr "abc".toList)) = none :=
  ⟨(claim6_stat_validation.1 (cardCandOf (.jnum ⟨42, 0⟩)) (cardOf 42) (by decide)).1,
   claim6_stat_validation.2.1 (cardCandOf (.jstr "abc".toList)) (by decide)⟩

theorem mapOrNone_none_of_mem {α β : Type} (f : α → Option β) (xs : List α) (x : α)
    (hx : x ∈ xs) (hfx : f x = none) : mapOrNone f xs = none := by
  induction xs with
  | nil => cases hx
  | cons y rest ih =>
    unfold mapOrNone
    rcases List.mem_cons.mp hx with he | hm
    · rw [← he, hfx]
    · rw [ih hm]
      cases f y <;> rfl

theorem normalizeOneQuestion_some (qv : JVal) (q : Question)
    (h : normalizeOneQuestion qv = some q) :
    1 ≤ q.id ∧ q.text ≠ [] ∧ q.text.length ≤ 30 := by
  unfold normalizeOneQuestion at h
  split at h
  · cases h
  · dsimp only at h
    split at h
    next n heq =>
      split at h
      next i heq2 =>
        split at h
        · cases h
        · next hcond =>
          cases h
          push_neg at hcond
          exact ⟨hcond.1, hcond.2, clampText_length _ _⟩
      next => cases h
    next => cases h

theorem normalizeQuestions_some (raw : JVal) (qs : QuestionSet)
    (h : normalizeQuestions raw = some qs) :
    4 ≤ qs.questions.length ∧ qs.questions.length ≤ 5 ∧
    qs.sessionId ≠ [] ∧ qs.sessionId.length ≤ 64 ∧
    ∀ q ∈ qs.questions, 1 ≤ q.id ∧ q.text ≠ [] ∧ q.text.length ≤ 30 := by
  unfold normalizeQuestions at h
  split at h
  · cases h
  · split at h
    next qsv heq =>
      split at h
      · cases h
      · next hlen =>
        dsimp only at h
        split at h
        · cases h
        · next hsid =>
          split at h
          next questions hmap =>
            cases h
            have hlen2 := mapOrNone_length _ _ _ hmap
            push_neg at hlen
            refine ⟨?_, ?_, hsid, clampText_length _ _, ?_⟩
            · show 4 ≤ questions.length
              omega
            · show questions.length ≤ 5
              omega
            intro q hq
            obtain ⟨x, _, hfx⟩ := mapOrNone_mem _ _ _ hmap q hq
            exact normalizeOneQuestion_some x q hfx
          next => cases h
    next => cases h

theorem attemptQuestions_ok_inv (call : CallResult) (qs : QuestionSet)
    (h : attemptQuestions call = .ok qs) :
    ∃ parsed, normalizeQuestions parsed = some qs := by
  unfold attemptQuestions at h
  cases call with
  | error e => cases h
  | ok rawText =>
    dsimp only at h
    split at h
    · cases h
    · split at h
      next => cases h
      next parsed heq =>
        split at h
        next qs0 hn =>
          cases h
          exact ⟨parsed, hn⟩
        next => cases h

/-- A backend question response with duplicate ids 1, 1, 2, 3 that is
otherwise fully valid. -/
def dupQuestionsText : Str :=
  "\x7b\"session_id\":\"s1\",\"questions\":[\x7b\"id\":1,\"text\":\"t1\"\x7d,\x7b\"id\":1,\"text\":\"t2\"\x7d,\x7b\"id\":2,\"text\":\"t3\"\x7d,\x7b\"id\":3,\"text\":\"t4\"\x7d]\x7d".toList

/-- The set `dupQuestionsText` validates to. -/
def dupQuestionSet : QuestionSet :=
  ⟨"s1".toList, [⟨1, "t1".toList⟩, ⟨1, "t2".toList⟩, ⟨2, "t3".toList⟩, ⟨3, "t4".toList⟩]⟩

set_option maxRecDepth 100000 in
/-- C7 counterexample: the claim says ids are unique within a returned
set and that candidates violating this fail validation, but the source
never checks uniqueness: a response with ids 1, 1, 2, 3 is validated and
returned by `generateQuestions`. -/
theorem claim7_cex :
    generateQuestions (fun _ => .ok dupQuestionsText) = .ok dupQuestionSet ∧
    dupQuestionSet.questions.map Question.id = [1, 1, 2, 3] ∧
    ¬(dupQuestionSet.questions.map Question.id).Nodup :=
  ⟨rfl, rfl, by decide⟩

/-- C7 (amended): every question set returned by validation — and hence
by `generateQuestions` — has 4 to 5 questions, each id an integer `≥ 1`
(uniqueness is NOT enforced), each text non-empty and at most 30
characters, and a non-empty session id of at most 64 characters. -/
theorem claim7_questions_shape :
    (∀ (raw : JVal) (qs : QuestionSet), normalizeQuestions raw = some qs →
      4 ≤ qs.questions.length ∧ qs.questions.length ≤ 5 ∧
      qs.sessionId ≠ [] ∧ qs.sessionId.length ≤ 64 ∧
      ∀ q ∈ qs.questions, 1 ≤ q.id ∧ q.text ≠ [] ∧ q.text.length ≤ 30) ∧
    (∀ (calls : ℕ → CallResult) (qs : QuestionSet), generateQuestions calls = .ok qs →
      4 ≤ qs.questions.length ∧ qs.questions.length ≤ 5 ∧
      qs.sessionId ≠ [] ∧ qs.sessionId.length ≤ 64 ∧
      ∀ q ∈ qs.questions, 1 ≤ q.id ∧ q.text ≠ [] ∧ q.text.length ≤ 30) := by
  refine ⟨normalizeQuestions_some, ?_⟩
  intro calls qs h
  obtain ⟨i, _, _, hi⟩ := attemptLoop3_ok_inv _ _ qs h
  obtain ⟨parsed, hn⟩ := attemptQuestions_ok_inv _ qs hi
  exact normalizeQuestions_some parsed qs hn

set_option maxRecDepth 100000 in
/-- C7 witness: the shape properties at a concrete valid generation. -/
theorem claim7_witness :
    4 ≤ dupQuestionSet.questions.length ∧ dupQuestionSet.questions.length ≤ 5 ∧
    dupQuestionSet.sessionId ≠ [] ∧ dupQuestionSet.sessionId.length ≤ 64 ∧
    ∀ q ∈ dupQuestionSet.questions, 1 ≤ q.id ∧ q.text ≠ [] ∧ q.text.length ≤ 30 :=
  claim7_questions_shape.2 (fun _ => .ok dupQuestionsText) dupQuestionSet rfl

set_option maxRecDepth 40000 in
/-- C5 witness: the parse strategy applied to an empty response, a direct
parse that fails validation, and a text with no brace span. -/
theorem claim5_witness :
    attemptCard (.ok "   ".toList) = .error emptyRespMsg ∧
    attemptCard (.ok "\x7b\x7d".toList) = .error schemaFailMsg ∧
    attemptCard (.ok "no json here".toList) = .error parseFailMsg :=
  ⟨claim5_parse_fallback.1 "   ".toList (by decide),
   (claim5_parse_fallback.2.1 "\x7b\x7d".toList (.jobj []) (by decide) (by rfl)).trans
     (by rfl),
   (claim5_parse_fallback.2.2.1 "no json here".toList (by decide) (by rfl)).trans
     (by rfl)⟩

/-! Claim theorems for the input-session store. -/

/-- A session as rewritten by a successful answer submission. -/
def answeredSession (now : ℕ) (session : InputSession) (kws : List Str) : InputSession :=
  { session with answeredAt := some now, keywords := some kws }

/-- C8: `submitAnswers` mutates a session at most once.  An already
answered session gets ALREADY_ANSWERED and is returned untouched (keeping
the keywords of the first successful call); an empty name or any
empty-after-trim answer fails validation, which yields INVALID with the
session untouched; the first valid call stamps `answeredAt` and stores
exactly the session marker, the name marker, and one trimmed marker per
question-answer pair. -/
theorem claim8_submit_spec :
    (∀ (now : ℕ) (session : InputSession) (payload : JVal) (t : ℕ),
      session.answeredAt = some t →
      submitAnswers now session payload = (.alreadyAnswered, session)) ∧
    (∀ (now : ℕ) (session : InputSession) (payload : JVal),
      session.answeredAt = none → normalizeInputAnswers session payload = none →
      submitAnswers now session payload = (.invalid, session)) ∧
    (∀ (session : InputSession) (payload : JVal),
      clampText (getProp payload "name".toList) 12 = [] →
      normalizeInputAnswers session payload = none) ∧
    (∀ (session : InputSession) (payload : JVal) (q : Question), q ∈ session.questions →
      clampText (getProp (getProp payload "answers".toList) (intToStr q.id)) 200 = [] →
      normalizeInputAnswers session payload = none) ∧
    (∀ (now : ℕ) (session : InputSession) (payload : JVal) (name : Str)
        (answers : List Str),
      session.answeredAt = none →
      normalizeInputAnswers session payload = some (name, answers) →
      submitAnswers now session payload =
        (.ok, answeredSession now session
          (("session:".toList ++ session.sessionId) ::
            ("name:".toList ++ name) ::
            (session.questions.zip answers).map
              (fun p => trim ('q' :: intToStr p.1.id ++ ':' :: p.2))))) := by
  refine ⟨?_, ?_, ?_, ?_, ?_⟩
  · intro now session payload t h
    simp [submitAnswers, h]
  · intro now session payload h1 h2
    simp [submitAnswers, h1, h2]
  · intro session payload hname
    unfold normalizeInputAnswers
    split
    · rfl
    · dsimp only
      split
      · rfl
      · next hcontra => exact absurd hname hcontra
  · intro session payload q hq hempty
    unfold normalizeInputAnswers
    split
    · rfl
    · dsimp only
      split
      · rfl
      · split
        · rfl
        · rw [mapOrNone_none_of_mem _ _ q hq (by rw [if_pos hempty])]
  · intro now session payload name answers h1 h2
    have hfilter : ((("session:".toList ++ session.sessionId) ::
        ("name:".toList ++ name) ::
        (session.questions.zip answers).map
          (fun p => trim ('q' :: intToStr p.1.id ++ ':' :: p.2))).filter
        (fun s => ¬s.isEmpty)) =
        (("session:".toList ++ session.sessionId) ::
          ("name:".toList ++ name) ::
          (session.questions.zip answers).map
            (fun p => trim ('q' :: intToStr p.1.id ++ ':' :: p.2))) := by
      apply List.filter_eq_self.mpr
      intro a ha
      rcases List.mem_cons.mp ha with h | ha2
      · rw [h]
        simp
      · rcases List.mem_cons.mp ha2 with h | ha3
        · rw [h]
          simp
        · obtain ⟨p, _, hpe⟩ := List.mem_map.mp ha3
          rw [← hpe]
          simpa using trim_cons_ne 'q' _ (by decide)
    simp only [submitAnswers, h1, h2, Option.isSome_none, Bool.false_eq_true, if_false,
      hfilter, answeredSession]
    simp

/-- A concrete two-question session used by the C8 witness. -/
def wSession : InputSession :=
  ⟨"tok".toList, 50, "sid".toList, [⟨1, "t1".toList⟩, ⟨2, "t2".toList⟩], none, none⟩

/-- A fully valid answers payload for `wSession`. -/
def wPayload : JVal :=
  .jobj [("name".toList, .jstr "Bob".toList),
         ("answers".toList, .jobj [("1".toList, .jstr "a1".toList),
                                   ("2".toList, .jstr "a2".toList)])]

/-- The same payload with the first answer made of whitespace only. -/
def wBadPayload : JVal :=
  .jobj [("name".toList, .jstr "Bob".toList),
         ("answers".toList, .jobj [("1".toList, .jstr "  ".toList),
                                   ("2".toList, .jstr "a2".toList)])]

/-- C8 witness: a second submission is rejected, a whitespace-only answer
is INVALID with the session untouched, and a valid first submission
stores the marker sequence. -/
theorem claim8_witness :
    submitAnswers 70 { wSession with answeredAt := some 60 } wPayload =
      (.alreadyAnswered, { wSession with answeredAt := some 60 }) ∧
    normalizeInputAnswers wSession wBadPayload = none ∧
    submitAnswers 61 wSession wBadPayload = (.invalid, wSession) ∧
    submitAnswers 60 wSession wPayload =
      (.ok, answeredSession 60 wSession
        (("session:".toList ++ wSession.sessionId) ::
          ("name:".toList ++ "Bob".toList) ::
          (wSession.questions.zip ["a1".toList, "a2".toList]).map
            (fun p => trim ('q' :: intToStr p.1.id ++ ':' :: p.2)))) :=
  ⟨claim8_submit_spec.1 70 { wSession with answeredAt := some 60 } wPayload 60 rfl,
   claim8_submit_spec.2.2.2.1 wSession wBadPayload ⟨1, "t1".toList⟩
     (List.mem_cons_self _ _) (by decide),
   claim8_submit_spec.2.1 61 wSession wBadPayload rfl
     (claim8_submit_spec.2.2.2.1 wSession wBadPayload ⟨1, "t1".toList⟩
       (List.mem_cons_self _ _) (by decide)),
   claim8_submit_spec.2.2.2.2 60 wSession wPayload "Bob".toList
     ["a1".toList, "a2".toList] rfl (by decide)⟩

end CARD
